import Mathlib

/-!
Verification of the elevator simulator core.

The repository contains two co-existing implementations of the engine:
* a monolithic engine (the root `elevator.go`), modelled in namespace `Mono`;
* a logic-split engine (`pkg/elevator/domain.go` plus `pkg/elevator/elevator.go`),
  modelled in namespaces `Logic` (pure domain logic) and `Split` (the
  application service around it).

Modelling conventions:
* Go `int` is modelled as `Int` (unbounded); the `math.MaxInt64` sentinel used
  by the scheduler loops is kept as the literal constant `maxInt64`.
* `time.Duration` is modelled as `Int` (nanoseconds).
* The pending-call map `map[int]bool` is modelled as a `Finset Int`; loops
  that range over the map take an explicit enumeration (`List Int`) of the
  call set, because Go's map iteration order is unspecified.
* The buffered event channel is modelled as an unbounded event log
  (`events : List Event`); the drop-on-full path of `publishEvent` is not
  modelled (it only drops events, never changes state).
* One-shot timers are modelled as `Option Int`: `some d` means the timer is
  armed with duration `d`, `none` means stopped or already consumed.  A timer
  fire first consumes the timer (`none`) and then runs the handler, which may
  re-arm it (`timer.Reset(d)` becomes `doorTimer := some d`).
* `sync.Mutex`, logging and timestamps are dropped: every exported operation
  is a single atomic state transition.
-/

/-- Direction indicates the vertical movement vector (`DirUp`, `DirDown`, `DirNone`). -/
inductive Direction where
  | Up
  | Down
  | None
  deriving DecidableEq, Repr, Inhabited

/-- DoorState represents the physical state of a door. -/
inductive DoorState where
  | Open
  | Opening
  | Closing
  | Close
  deriving DecidableEq, Repr, Inhabited

/-- OperationMode defines the control strategy (`ModeAuto` is the zero value). -/
inductive OperationMode where
  | Auto
  | Manual
  | Moving
  | Emergency
  deriving DecidableEq, Repr, Inhabited

/-- DoorSide is a bitmask (`Front = 1`, `Rear = 2`, `Both = 3`), modelled as `Nat`. -/
def Front : Nat := 1

/-- Rear door side bit. -/
def Rear : Nat := 2

/-- Both door sides, `Front | Rear`. -/
def Both : Nat := 3

/-- FloorConfig holds the per-floor settings. -/
structure FloorConfig where
  FloorNumber : Int
  IsAccessible : Bool
  OpenDoorSide : Nat
  deriving DecidableEq, Repr, Inhabited

/-- The Go zero value of `FloorConfig`, produced by indexing a map at a missing key. -/
def zeroFloorConfig : FloorConfig := { FloorNumber := 0, IsAccessible := false, OpenDoorSide := 0 }

/-- Config holds the immutable configuration parameters (durations in ns as `Int`). -/
structure Config where
  travelTime : Int
  travelTimeEdge : Int
  doorSpeed : Int
  doorOpenTime : Int
  doorReopenTime : Int
  initialFloor : Int
  minFloor : Int
  maxFloor : Int
  maxWeight : Int
  floorConfigs : Int → Option FloorConfig
  deriving Inhabited

/-- An entry of the event channel (timestamps are dropped). -/
inductive Event where
  | floorChange (floor : Int)
  | directionChange (dir : Direction)
  | doorChange (side : Nat) (state : DoorState)
  | modeChange (mode : OperationMode)
  | arrived (floor : Int) (openDoorSide : Nat)
  | errorEvent
  deriving DecidableEq, Repr, Inhabited

/-- The defaulting loop of `New` / `NewElevatorLogic`: every floor in
`[minFloor, maxFloor]` that has no entry receives
`FloorConfig{FloorNumber: i, IsAccessible: true, OpenDoorSide: Front}`;
existing entries (including out-of-range ones) are kept. -/
def fillFloorConfigs (minF maxF : Int) (m : Int → Option FloorConfig) :
    Int → Option FloorConfig :=
  fun i =>
    match m i with
    | some c => some c
    | none =>
        if minF ≤ i ∧ i ≤ maxF then
          some { FloorNumber := i, IsAccessible := true, OpenDoorSide := Front }
        else
          none

/-- The `math.MaxInt64` sentinel that initialises `minDist` in the scheduler loops. -/
def maxInt64 : Int := 9223372036854775807

/-- One iteration of the scheduler loops: `if p f { dist := d f; if dist < minDist
{ minDist, target, found = dist, f, true } }`.  The accumulator is
`(minDist, target, found)`. -/
def scanStep (p : Int → Bool) (d : Int → Int) (acc : Int × Int × Bool) (f : Int) :
    Int × Int × Bool :=
  if p f then
    if d f < acc.1 then (d f, f, true) else acc
  else acc

/-- The scheduler loop `for f := range calls { ... }`, starting from an arbitrary
accumulator, over an explicit iteration order. -/
def scanGo (p : Int → Bool) (d : Int → Int) (acc : Int × Int × Bool) :
    List Int → Int × Int × Bool
  | [] => acc
  | f :: rest => scanGo p d (scanStep p d acc f) rest

/-- A full scheduler loop starting from `minDist = math.MaxInt64`, `target = -1`,
`found = false`. -/
def scanMin (p : Int → Bool) (d : Int → Int) (calls : List Int) : Int × Int × Bool :=
  scanGo p d (maxInt64, -1, false) calls

namespace Mono

/-- The mutable state of the monolithic `Elevator` plus the loop-local travel
timer and `isMoving` flag of its `Run` loop. -/
structure ElevState where
  config : Config
  mode : OperationMode
  floor : Int
  direction : Direction
  doorFront : DoorState
  doorRear : DoorState
  weight : Int
  openWaitTime : Int
  callFloors : Finset Int
  isOpenButtonPressed : Bool
  doorTimer : Option Int
  travelTimer : Option Int
  isMoving : Bool
  events : List Event
  deriving Inhabited

/-- `publishEvent`: non-blocking send, modelled as an append to the event log. -/
def publishEvent (ev : Event) (s : ElevState) : ElevState :=
  { s with events := s.events ++ [ev] }

/-- `setFloor` updates the floor and publishes an event when it changed. -/
def setFloor (f : Int) (s : ElevState) : ElevState :=
  if s.floor = f then s else publishEvent (.floorChange f) { s with floor := f }

/-- `setDirection` updates the direction and publishes an event when it changed. -/
def setDirection (d : Direction) (s : ElevState) : ElevState :=
  if s.direction = d then s else publishEvent (.directionChange d) { s with direction := d }

/-- `setDoor` updates one door's state and publishes an event when it changed
(`side` is the map key, `Front = 1` or `Rear = 2`). -/
def setDoor (side : Nat) (st : DoorState) (s : ElevState) : ElevState :=
  if side = Front then
    if s.doorFront = st then s else publishEvent (.doorChange Front st) { s with doorFront := st }
  else if side = Rear then
    if s.doorRear = st then s else publishEvent (.doorChange Rear st) { s with doorRear := st }
  else s

/-- `New` validates the configuration (only `MinFloor > MaxFloor` is rejected),
fills missing floor configs, defaults `DoorReopenTime`, and builds the initial
state; the door timer starts stopped. -/
def New (config : Config) : Except String ElevState :=
  if config.minFloor > config.maxFloor then
    .error "invalid config: MinFloor greater than MaxFloor"
  else
    let config1 :=
      { config with
        floorConfigs := fillFloorConfigs config.minFloor config.maxFloor config.floorConfigs }
    let config2 :=
      if config1.doorReopenTime = 0 then
        { config1 with doorReopenTime := config1.doorOpenTime }
      else config1
    .ok
      { config := config2
        mode := .Auto
        floor := config.initialFloor
        direction := .None
        doorFront := .Close
        doorRear := .Close
        weight := 0
        openWaitTime := config.doorOpenTime
        callFloors := ∅
        isOpenButtonPressed := false
        doorTimer := none
        travelTimer := none
        isMoving := false
        events := [] }

/-- `Reset` clears the call queue, idles the direction and closes both doors;
the floor is left untouched. -/
def Reset (s : ElevState) : ElevState :=
  let s1 := { s with callFloors := ∅ }
  let s2 := setDirection .None s1
  let s3 := setDoor Front .Close s2
  setDoor Rear .Close s3

/-- `SetMode` changes the operation mode; on entry to Emergency it stops the
door timer and sets the direction field directly (no event). -/
def SetMode (mode : OperationMode) (s : ElevState) : ElevState :=
  if s.mode = mode then s
  else
    let s1 := publishEvent (.modeChange mode) { s with mode := mode }
    if mode = .Emergency then { s1 with doorTimer := none, direction := .None } else s1

/-- `AddCall` validates the floor (range, then accessibility via the config map,
whose missing-key lookup yields the Go zero value) and inserts it; a duplicate
is accepted without change.  Returns the new state and the error, mirroring the
Go receiver mutation plus `error` return. -/
def AddCall (floor : Int) (s : ElevState) : ElevState × Option String :=
  if floor < s.config.minFloor ∨ floor > s.config.maxFloor then
    (s, some "floor out of range")
  else
    let cfg := (s.config.floorConfigs floor).getD zeroFloorConfig
    if cfg.IsAccessible = false then
      (s, some "floor is inaccessible")
    else if floor ∈ s.callFloors then
      (s, none)
    else
      ({ s with callFloors := insert floor s.callFloors }, none)

/-- `RemoveCall` deletes a pending call (idempotent). -/
def RemoveCall (floor : Int) (s : ElevState) : ElevState :=
  { s with callFloors := s.callFloors.erase floor }

/-- `ClearCalls` empties the call set. -/
def ClearCalls (s : ElevState) : ElevState :=
  { s with callFloors := ∅ }

/-- `AddWeight` adds a (possibly negative) weight delta. -/
def AddWeight (w : Int) (s : ElevState) : ElevState :=
  { s with weight := s.weight + w }

/-- The exported manual `SetDoor` override. -/
def SetDoorManual (side : Nat) (st : DoorState) (s : ElevState) : ElevState :=
  setDoor side st s

/-- Phase 1 of `selectNextTarget`: scan the calls strictly ahead of the current
floor in the heading direction (no scan when idle). -/
def phase1 (floor : Int) (direction : Direction) (calls : List Int) : Int × Int × Bool :=
  match direction with
  | .Up => scanMin (fun f => decide (f > floor)) (fun f => f - floor) calls
  | .Down => scanMin (fun f => decide (f < floor)) (fun f => floor - f) calls
  | .None => (maxInt64, -1, false)

/-- Phase 2 of `selectNextTarget`: nearest call by absolute distance
(`dist := int(math.Abs(float64(f - floor)))`). -/
def phase2 (floor : Int) (calls : List Int) : Int × Int × Bool :=
  scanMin (fun _ => true) (fun f => ((f - floor).natAbs : Int)) calls

/-- `selectNextTarget` (monolith): SCAN with strict comparisons in Phase 1,
falling back to the nearest call, over an explicit iteration order of the
call set. -/
def selectNextTarget (floor : Int) (direction : Direction) (calls : List Int) : Option Int :=
  if calls = [] then none
  else if (phase1 floor direction calls).2.2 then some (phase1 floor direction calls).2.1
  else if (phase2 floor calls).2.2 then some (phase2 floor calls).2.1
  else none

/-- `getNextMoveDuration`: edge (start/stop) duration when departing from rest
or when the target is exactly one floor away, cruise duration otherwise. -/
def getNextMoveDuration (s : ElevState) (target : Int) : Int :=
  if s.direction = .None ∨ (target - s.floor).natAbs = 1 then
    s.config.travelTimeEdge
  else
    s.config.travelTime

/-- `handleArrival`: open the configured door side(s), drop the call, publish
`Arrived`, set the post-arrival hold time and arm the door timer for
`DoorSpeed`. -/
def handleArrival (floor : Int) (s : ElevState) : ElevState :=
  let openDoorSide : Nat :=
    match s.config.floorConfigs floor with
    | some cfg => cfg.OpenDoorSide
    | none => Front
  let s1 := if openDoorSide.land Front ≠ 0 then setDoor Front .Opening s else s
  let s2 := if openDoorSide.land Rear ≠ 0 then setDoor Rear .Opening s1 else s1
  let s3 := { s2 with callFloors := s2.callFloors.erase floor }
  let s4 := publishEvent (.arrived floor openDoorSide) s3
  { s4 with openWaitTime := s4.config.doorOpenTime, doorTimer := some s4.config.doorSpeed }

/-- `step` (one tick of the `Run` loop): only in Auto mode, not while moving,
and only with both doors closed; consult the scheduler and either idle the
direction, arrive in place, or start a move (arming the travel timer). -/
def step (order : List Int) (s : ElevState) : ElevState :=
  if s.mode ≠ .Auto then s
  else if s.isMoving then s
  else if ¬(s.doorFront = .Close ∧ s.doorRear = .Close) then s
  else
    match selectNextTarget s.floor s.direction order with
    | none => if s.direction ≠ .None then { s with direction := .None } else s
    | some target =>
        if target > s.floor then
          let duration := getNextMoveDuration s target
          let s1 := setDirection .Up s
          { s1 with isMoving := true, travelTimer := some duration }
        else if target < s.floor then
          let duration := getNextMoveDuration s target
          let s1 := setDirection .Down s
          { s1 with isMoving := true, travelTimer := some duration }
        else
          handleArrival target s

/-- `handleMove`: advance the floor one step in the travel direction, stop and
arrive if the new floor is called, otherwise keep cruising in the same heading
or stop to reverse.  Returns `(state, shouldContinue, nextDuration)`. -/
def handleMove (order : List Int) (s : ElevState) : ElevState × Bool × Int :=
  let s1 :=
    match s.direction with
    | .Up => setFloor (s.floor + 1) s
    | .Down => setFloor (s.floor - 1) s
    | .None => s
  if s1.floor ∈ s1.callFloors then
    (handleArrival s1.floor s1, false, 0)
  else
    match selectNextTarget s1.floor s1.direction order with
    | none => (setDirection .None s1, false, 0)
    | some target =>
        if (s1.direction = .Up ∧ target > s1.floor) ∨
            (s1.direction = .Down ∧ target < s1.floor) then
          (s1, true, getNextMoveDuration s1 target)
        else
          (setDirection .None s1, false, 0)

/-- A travel-timer fire as performed by the `Run` loop: consume the timer, run
`handleMove`, and either re-arm the travel timer or clear the moving flag. -/
def fireTravel (order : List Int) (s : ElevState) : ElevState :=
  let r := handleMove order { s with travelTimer := none }
  if r.2.1 then { r.1 with travelTimer := some r.2.2 }
  else { r.1 with isMoving := false }

/-- The local `state` variable of `handleDoorTimeout` / `PressOpenButton`:
the front door's state unless the front door is closed, then the rear door's. -/
def activeDoorState (s : ElevState) : DoorState :=
  if s.doorFront = .Close then s.doorRear else s.doorFront

/-- `handleDoorTimeout` (monolith): the door state machine.  In state `Open`
the hold-button check comes first, then the overload check; either re-arms the
timer without closing. -/
def handleDoorTimeout (s : ElevState) : ElevState :=
  match activeDoorState s with
  | .Close => s
  | .Opening =>
      let s1 := if s.doorFront = .Opening then setDoor Front .Open s else s
      let s2 := if s1.doorRear = .Opening then setDoor Rear .Open s1 else s1
      { s2 with doorTimer := some s2.openWaitTime }
  | .Open =>
      if s.isOpenButtonPressed then
        { s with doorTimer := some s.config.doorReopenTime }
      else if s.config.maxWeight > 0 ∧ s.weight > s.config.maxWeight then
        { s with doorTimer := some s.openWaitTime }
      else
        let s1 := if s.doorFront = .Open then setDoor Front .Closing s else s
        let s2 := if s1.doorRear = .Open then setDoor Rear .Closing s1 else s1
        { s2 with doorTimer := some s2.config.doorSpeed }
  | .Closing =>
      let s1 := if s.doorFront = .Closing then setDoor Front .Close s else s
      if s1.doorRear = .Closing then setDoor Rear .Close s1 else s1

/-- A door-timer fire as performed by the `Run` loop: consume the timer, then
run the handler (which may re-arm it). -/
def fireDoor (s : ElevState) : ElevState :=
  handleDoorTimeout { s with doorTimer := none }

/-- `PressOpenButton`: set the held flag; reopen a closing door, extend the
hold of an open door, or open from idle when stopped with doors closed. -/
def PressOpenButton (s : ElevState) : ElevState :=
  let s0 := { s with isOpenButtonPressed := true }
  match activeDoorState s0 with
  | .Closing =>
      let s1 := if s0.doorFront = .Closing then setDoor Front .Opening s0 else s0
      let s2 := if s1.doorRear = .Closing then setDoor Rear .Opening s1 else s1
      { s2 with openWaitTime := s2.config.doorReopenTime, doorTimer := some s2.config.doorSpeed }
  | .Open =>
      { s0 with
        openWaitTime := s0.config.doorReopenTime
        doorTimer := some s0.config.doorReopenTime }
  | .Close =>
      if s0.direction = .None then
        let openSide : Nat :=
          match s0.config.floorConfigs s0.floor with
          | some cfg => cfg.OpenDoorSide
          | none => Front
        let s1 := if openSide.land Front ≠ 0 then setDoor Front .Opening s0 else s0
        let s2 := if openSide.land Rear ≠ 0 then setDoor Rear .Opening s1 else s1
        { s2 with
          openWaitTime := s2.config.doorReopenTime
          doorTimer := some s2.config.doorSpeed }
      else s0
  | .Opening => s0

/-- `ReleaseOpenButton`: clear the held flag; when the front door is fully open,
restart the hold countdown with `DoorReopenTime`. -/
def ReleaseOpenButton (s : ElevState) : ElevState :=
  let s0 := { s with isOpenButtonPressed := false }
  if s0.doorFront = .Open then
    { s0 with
      openWaitTime := s0.config.doorReopenTime
      doorTimer := some s0.config.doorReopenTime }
  else s0

/-- `PressCloseButton`: ignored while the open button is held; when the front
door is open, shorten the door timer to fire immediately. -/
def PressCloseButton (s : ElevState) : ElevState :=
  if s.isOpenButtonPressed then s
  else if s.doorFront = .Open then { s with doorTimer := some 0 }
  else s

/-- An enumeration order of the pending-call set, as Go's `range` over the map
could produce it: duplicate-free and containing exactly the pending calls. -/
def ValidOrder (s : ElevState) (order : List Int) : Prop :=
  order.Nodup ∧ ∀ f : Int, f ∈ order ↔ f ∈ s.callFloors

/-- Invariant P3: every pending call is within `[minFloor, maxFloor]` and its
floor config (with the Go zero value for a missing map entry) is accessible. -/
def CallsValid (s : ElevState) : Prop :=
  ∀ f ∈ s.callFloors, s.config.minFloor ≤ f ∧ f ≤ s.config.maxFloor ∧
    ((s.config.floorConfigs f).getD zeroFloorConfig).IsAccessible = true

/-- The floor reached after one hop in the current travel direction. -/
def movedFloor (s : ElevState) : Int :=
  match s.direction with
  | .Up => s.floor + 1
  | .Down => s.floor - 1
  | .None => s.floor

/-- States of the monolithic engine reachable from a fresh `New` by engine
ticks, timer fires and exported commands. -/
inductive Reach (cfg : Config) : ElevState → Prop where
  | init (s : ElevState) : New cfg = .ok s → Reach cfg s
  | tick (s : ElevState) (order : List Int) :
      Reach cfg s → ValidOrder s order → Reach cfg (step order s)
  | travelFire (s : ElevState) (order : List Int) (d : Int) :
      Reach cfg s → s.travelTimer = some d → ValidOrder s order →
      Reach cfg (fireTravel order s)
  | doorFire (s : ElevState) (d : Int) :
      Reach cfg s → s.doorTimer = some d → Reach cfg (fireDoor s)
  | addCall (s : ElevState) (f : Int) : Reach cfg s → Reach cfg (AddCall f s).1
  | removeCall (s : ElevState) (f : Int) : Reach cfg s → Reach cfg (RemoveCall f s)
  | clearCalls (s : ElevState) : Reach cfg s → Reach cfg (ClearCalls s)
  | reset (s : ElevState) : Reach cfg s → Reach cfg (Reset s)
  | setMode (s : ElevState) (m : OperationMode) : Reach cfg s → Reach cfg (SetMode m s)
  | addWeight (s : ElevState) (w : Int) : Reach cfg s → Reach cfg (AddWeight w s)
  | setDoorManual (s : ElevState) (side : Nat) (st : DoorState) :
      Reach cfg s → Reach cfg (SetDoorManual side st s)
  | pressOpen (s : ElevState) : Reach cfg s → Reach cfg (PressOpenButton s)
  | releaseOpen (s : ElevState) : Reach cfg s → Reach cfg (ReleaseOpenButton s)
  | pressClose (s : ElevState) : Reach cfg s → Reach cfg (PressCloseButton s)

end Mono

namespace Logic

/-- `LogicConfig` of the split implementation (`pkg/elevator/domain.go`). -/
structure LogicConfig where
  MinFloor : Int
  MaxFloor : Int
  InitialFloor : Int
  MaxWeight : Int
  FloorConfigs : Int → Option FloorConfig
  deriving Inhabited

/-- The config part of `NewElevatorLogic`: fill missing floor configs with the
defaults. -/
def newLogicCfg (cfg : LogicConfig) : LogicConfig :=
  { cfg with FloorConfigs := fillFloorConfigs cfg.MinFloor cfg.MaxFloor cfg.FloorConfigs }

/-- Phase 1 of the split scheduler: NON-strict comparisons
(`f >= l.Floor` / `f <= l.Floor`, the current floor is included). -/
def phase1 (floor : Int) (direction : Direction) (calls : List Int) : Int × Int × Bool :=
  match direction with
  | .Up => scanMin (fun f => decide (f ≥ floor)) (fun f => f - floor) calls
  | .Down => scanMin (fun f => decide (f ≤ floor)) (fun f => floor - f) calls
  | .None => (maxInt64, -1, false)

/-- Phase 2 of the split scheduler: nearest call by absolute distance. -/
def phase2 (floor : Int) (calls : List Int) : Int × Int × Bool :=
  scanMin (fun _ => true) (fun f => ((f - floor).natAbs : Int)) calls

/-- `selectNextTarget` of `ElevatorLogic` (`pkg/elevator/domain.go`): SCAN with
non-strict Phase 1 comparisons. -/
def selectNextTarget (floor : Int) (direction : Direction) (calls : List Int) : Option Int :=
  if calls = [] then none
  else if (phase1 floor direction calls).2.2 then some (phase1 floor direction calls).2.1
  else if (phase2 floor calls).2.2 then some (phase2 floor calls).2.1
  else none

/-- `LogicActionType` of the split domain logic. -/
inductive LogicActionType where
  | ActionNone
  | ActionMove
  | ActionOpenDoor
  | ActionCloseDoor
  | ActionStop
  deriving DecidableEq, Repr, Inhabited

/-- `LogicAction` (the Go field `Type` is renamed `actionType`; an unset Go
`Direction` zero value is rendered as `DirNone`). -/
structure LogicAction where
  actionType : LogicActionType
  Target : Int
  Dir : Direction
  deriving DecidableEq, Repr, Inhabited

end Logic

namespace Split

/-- The state of the split application service (`pkg/elevator/elevator.go`)
together with its embedded `ElevatorLogic` state, the loop-local travel timer
and the `isMoving` flag.  `config` is the service's `Config`; `logicCfg` is the
logic's `LogicConfig` whose `FloorConfigs` were filled by `NewElevatorLogic`
(when the caller passes a non-nil map, Go aliases the two maps and both views
are the filled map; a nil map leaves the service's view empty). -/
structure SplitState where
  config : Config
  logicCfg : Logic.LogicConfig
  mode : OperationMode
  floor : Int
  direction : Direction
  doorFront : DoorState
  doorRear : DoorState
  weight : Int
  calls : Finset Int
  openWaitTime : Int
  isOpenButtonPressed : Bool
  doorTimer : Option Int
  travelTimer : Option Int
  isMoving : Bool
  events : List Event
  deriving Inhabited

/-- `publishEvent` of the split service, modelled as an append to the event log. -/
def publishEvent (ev : Event) (s : SplitState) : SplitState :=
  { s with events := s.events ++ [ev] }

/-- `setFloor` of the split service. -/
def setFloor (f : Int) (s : SplitState) : SplitState :=
  if s.floor = f then s else publishEvent (.floorChange f) { s with floor := f }

/-- `setDirection` of the split service. -/
def setDirection (d : Direction) (s : SplitState) : SplitState :=
  if s.direction = d then s else publishEvent (.directionChange d) { s with direction := d }

/-- `setDoor` of the split service. -/
def setDoor (side : Nat) (st : DoorState) (s : SplitState) : SplitState :=
  if side = Front then
    if s.doorFront = st then s else publishEvent (.doorChange Front st) { s with doorFront := st }
  else if side = Rear then
    if s.doorRear = st then s else publishEvent (.doorChange Rear st) { s with doorRear := st }
  else s

/-- `New` of the split service: build the logic (which fills floor configs),
reject only `MinFloor > MaxFloor`, default `DoorReopenTime`. -/
def New (config : Config) : Except String SplitState :=
  let logicCfg : Logic.LogicConfig :=
    Logic.newLogicCfg
      { MinFloor := config.minFloor
        MaxFloor := config.maxFloor
        InitialFloor := config.initialFloor
        MaxWeight := config.maxWeight
        FloorConfigs := config.floorConfigs }
  if config.minFloor > config.maxFloor then
    .error "invalid config: MinFloor greater than MaxFloor"
  else
    let config2 :=
      if config.doorReopenTime = 0 then
        { config with doorReopenTime := config.doorOpenTime }
      else config
    .ok
      { config := config2
        logicCfg := logicCfg
        mode := .Auto
        floor := logicCfg.InitialFloor
        direction := .None
        doorFront := .Close
        doorRear := .Close
        weight := 0
        calls := ∅
        openWaitTime := config.doorOpenTime
        isOpenButtonPressed := false
        doorTimer := none
        travelTimer := none
        isMoving := false
        events := [] }

/-- `Reset` of the split service: replace the logic with a fresh
`NewElevatorLogic(e.Logic.Config)` — this puts the floor back at
`InitialFloor` and zeroes the weight — then publish the four reset events. -/
def Reset (s : SplitState) : SplitState :=
  let lc := Logic.newLogicCfg s.logicCfg
  let s1 :=
    { s with
      logicCfg := lc
      floor := lc.InitialFloor
      direction := .None
      doorFront := .Close
      doorRear := .Close
      weight := 0
      calls := ∅ }
  let s2 := publishEvent (.floorChange s1.floor) s1
  let s3 := publishEvent (.directionChange s1.direction) s2
  let s4 := publishEvent (.doorChange Front .Close) s3
  publishEvent (.doorChange Rear .Close) s4

/-- `ElevatorLogic.AddCall` as called through the service: range check against
the logic config, accessibility check (missing-key lookup yields the Go zero
value), then an unconditional set insert. -/
def AddCall (floor : Int) (s : SplitState) : SplitState × Option String :=
  if floor < s.logicCfg.MinFloor ∨ floor > s.logicCfg.MaxFloor then
    (s, some "floor out of range")
  else
    let cfg := (s.logicCfg.FloorConfigs floor).getD zeroFloorConfig
    if cfg.IsAccessible = false then
      (s, some "floor is inaccessible")
    else
      ({ s with calls := insert floor s.calls }, none)

/-- `RemoveCall` through the service. -/
def RemoveCall (floor : Int) (s : SplitState) : SplitState :=
  { s with calls := s.calls.erase floor }

/-- `ClearCalls` of the split service: it replaces the logic's call map with a
fresh one (`e.Logic.Calls = make(map[int]bool)`). -/
def ClearCalls (s : SplitState) : SplitState :=
  { s with calls := ∅ }

/-- `AddWeight` of the split service: add a (possibly negative) delta to the
logic's weight. -/
def AddWeight (w : Int) (s : SplitState) : SplitState :=
  { s with weight := s.weight + w }

/-- The exported manual `SetDoor` of the split service: when the stored state
differs, set it through the logic and publish the change — exactly the shared
`setDoor` helper's behaviour. -/
def SetDoorManual (side : Nat) (st : DoorState) (s : SplitState) : SplitState :=
  setDoor side st s

/-- `SetMode` of the split service; on entry to `Emergency` it stops the door
timer and then calls `setDirection(DirNone)` (which publishes a direction
event if the direction changes). -/
def SetMode (mode : OperationMode) (s : SplitState) : SplitState :=
  if s.mode = mode then s
  else
    let s1 := publishEvent (.modeChange mode) { s with mode := mode }
    if mode = .Emergency then setDirection .None { s1 with doorTimer := none } else s1

/-- `PressOpenButton` of the split service: set the held flag; if either door
is `Closing`, reopen both (via the change-checking `setDoor`) and restart the
door timer at `DoorSpeed`; otherwise, if the front door is fully `Open`,
extend the timer by `DoorReopenTime`. -/
def PressOpenButton (s : SplitState) : SplitState :=
  let s0 := { s with isOpenButtonPressed := true }
  if s0.doorFront = .Closing ∨ s0.doorRear = .Closing then
    let s1 := setDoor Front .Opening s0
    let s2 := setDoor Rear .Opening s1
    { s2 with doorTimer := some s2.config.doorSpeed }
  else if s0.doorFront = .Open then
    { s0 with doorTimer := some s0.config.doorReopenTime }
  else s0

/-- `ReleaseOpenButton` of the split service: clear the held flag only (the
run loop re-checks it on the next door-timer fire). -/
def ReleaseOpenButton (s : SplitState) : SplitState :=
  { s with isOpenButtonPressed := false }

/-- `PressCloseButton` of the split service: when a door is open and the open
button is not held, shorten the door timer to one millisecond so the timeout
fires almost immediately. -/
def PressCloseButton (s : SplitState) : SplitState :=
  if (s.doorFront = .Open ∨ s.doorRear = .Open) ∧ s.isOpenButtonPressed = false then
    { s with doorTimer := some 1 }
  else s

/-- `AreDoorsClosed` of the domain logic. -/
def AreDoorsClosed (s : SplitState) : Bool :=
  decide (s.doorFront = .Close ∧ s.doorRear = .Close)

/-- `DecideNextStep` of the domain logic, over an explicit iteration order of
the call set. -/
def DecideNextStep (order : List Int) (s : SplitState) : Logic.LogicAction :=
  if AreDoorsClosed s = false then
    { actionType := .ActionNone, Target := 0, Dir := .None }
  else if order = [] then
    if s.direction ≠ .None then { actionType := .ActionStop, Target := 0, Dir := .None }
    else { actionType := .ActionNone, Target := 0, Dir := .None }
  else
    match Logic.selectNextTarget s.floor s.direction order with
    | none =>
        if s.direction ≠ .None then { actionType := .ActionStop, Target := 0, Dir := .None }
        else { actionType := .ActionNone, Target := 0, Dir := .None }
    | some target =>
        if target = s.floor then
          { actionType := .ActionOpenDoor, Target := target, Dir := .None }
        else if target > s.floor then
          { actionType := .ActionMove, Target := target, Dir := .Up }
        else
          { actionType := .ActionMove, Target := target, Dir := .Down }

/-- `handleArrival` of the split service: the open side is looked up in the
SERVICE config (`e.Config.FloorConfigs`), defaulting to Front. -/
def handleArrival (floor : Int) (s : SplitState) : SplitState :=
  let openSide : Nat :=
    match s.config.floorConfigs floor with
    | some cfg => cfg.OpenDoorSide
    | none => Front
  let s1 := if openSide.land Front ≠ 0 then setDoor Front .Opening s else s
  let s2 := if openSide.land Rear ≠ 0 then setDoor Rear .Opening s1 else s1
  let s3 := { s2 with calls := s2.calls.erase floor }
  let s4 := publishEvent (.arrived floor openSide) s3
  { s4 with openWaitTime := s4.config.doorOpenTime, doorTimer := some s4.config.doorSpeed }

/-- `step` of the split service: enact the logic's decision.  Note that a move
always arms the travel timer with the cruise duration `TravelTime`
(`duration := e.Config.TravelTime`); `TravelTimeEdge` is never used here. -/
def step (order : List Int) (s : SplitState) : SplitState :=
  if s.mode ≠ .Auto then s
  else if s.isMoving then s
  else
    let action := DecideNextStep order s
    match action.actionType with
    | .ActionMove =>
        let s1 := setDirection action.Dir s
        let duration := s1.config.travelTime
        { s1 with isMoving := true, travelTimer := some duration }
    | .ActionStop =>
        if s.direction ≠ .None then setDirection .None s else s
    | .ActionOpenDoor => handleArrival action.Target s
    | _ => s

/-- `handleMoveComplete` of the split service: move one floor, re-consult the
logic; continuation always uses `TravelTime`. -/
def handleMoveComplete (order : List Int) (s : SplitState) : SplitState × Bool × Int :=
  let newFloor :=
    match s.direction with
    | .Up => s.floor + 1
    | .Down => s.floor - 1
    | .None => s.floor
  let s1 := setFloor newFloor s
  let action := DecideNextStep order s1
  match action.actionType with
  | .ActionOpenDoor => (handleArrival s1.floor s1, false, 0)
  | .ActionMove =>
      let s2 := if action.Dir ≠ s1.direction then setDirection action.Dir s1 else s1
      (s2, true, s2.config.travelTime)
  | _ => (setDirection .None s1, false, 0)

/-- A travel-timer fire of the split `Run` loop. -/
def fireTravel (order : List Int) (s : SplitState) : SplitState :=
  let r := handleMoveComplete order { s with travelTimer := none }
  if r.2.1 then { r.1 with travelTimer := some r.2.2 }
  else { r.1 with isMoving := false }

/-- The local `state` variable of the split `handleDoorTimeout`. -/
def activeDoorState (s : SplitState) : DoorState :=
  if s.doorFront = .Close then s.doorRear else s.doorFront

/-- `handleDoorTimeout` of the split service.  In state `Open` the OVERLOAD
check comes first, then the hold-button check; in state `Closing` both doors
are set to `Close` unconditionally. -/
def handleDoorTimeout (s : SplitState) : SplitState :=
  match activeDoorState s with
  | .Close => s
  | .Opening =>
      let s1 := if s.doorFront = .Opening then setDoor Front .Open s else s
      let s2 := if s1.doorRear = .Opening then setDoor Rear .Open s1 else s1
      { s2 with doorTimer := some s2.openWaitTime }
  | .Open =>
      if s.config.maxWeight > 0 ∧ s.weight > s.config.maxWeight then
        { s with doorTimer := some s.openWaitTime }
      else if s.isOpenButtonPressed then
        { s with doorTimer := some s.config.doorReopenTime }
      else
        let s1 := if s.doorFront = .Open then setDoor Front .Closing s else s
        let s2 := if s1.doorRear = .Open then setDoor Rear .Closing s1 else s1
        { s2 with doorTimer := some s2.config.doorSpeed }
  | .Closing =>
      let s1 := setDoor Front .Close s
      setDoor Rear .Close s1

/-- A door-timer fire of the split `Run` loop. -/
def fireDoor (s : SplitState) : SplitState :=
  handleDoorTimeout { s with doorTimer := none }

/-- An enumeration order of the pending-call set of the split logic. -/
def ValidOrder (s : SplitState) (order : List Int) : Prop :=
  order.Nodup ∧ ∀ f : Int, f ∈ order ↔ f ∈ s.calls

/-- Invariant P3 for the split engine: every pending call of the logic lies
within the logic's `[MinFloor, MaxFloor]` and its logic floor config (with
the Go zero value for a missing map entry) is accessible. -/
def CallsValid (s : SplitState) : Prop :=
  ∀ f ∈ s.calls, s.logicCfg.MinFloor ≤ f ∧ f ≤ s.logicCfg.MaxFloor ∧
    ((s.logicCfg.FloorConfigs f).getD zeroFloorConfig).IsAccessible = true

/-- States of the split engine reachable from a fresh `New` by engine ticks,
timer fires and exported commands. -/
inductive Reach (cfg : Config) : SplitState → Prop where
  | init (s : SplitState) : New cfg = .ok s → Reach cfg s
  | tick (s : SplitState) (order : List Int) :
      Reach cfg s → ValidOrder s order → Reach cfg (step order s)
  | travelFire (s : SplitState) (order : List Int) (d : Int) :
      Reach cfg s → s.travelTimer = some d → ValidOrder s order →
      Reach cfg (fireTravel order s)
  | doorFire (s : SplitState) (d : Int) :
      Reach cfg s → s.doorTimer = some d → Reach cfg (fireDoor s)
  | addCall (s : SplitState) (f : Int) : Reach cfg s → Reach cfg (AddCall f s).1
  | removeCall (s : SplitState) (f : Int) : Reach cfg s → Reach cfg (RemoveCall f s)
  | clearCalls (s : SplitState) : Reach cfg s → Reach cfg (ClearCalls s)
  | reset (s : SplitState) : Reach cfg s → Reach cfg (Reset s)
  | setMode (s : SplitState) (m : OperationMode) : Reach cfg s → Reach cfg (SetMode m s)
  | addWeight (s : SplitState) (w : Int) : Reach cfg s → Reach cfg (AddWeight w s)
  | setDoorManual (s : SplitState) (side : Nat) (st : DoorState) :
      Reach cfg s → Reach cfg (SetDoorManual side st s)
  | pressOpen (s : SplitState) : Reach cfg s → Reach cfg (PressOpenButton s)
  | releaseOpen (s : SplitState) : Reach cfg s → Reach cfg (ReleaseOpenButton s)
  | pressClose (s : SplitState) : Reach cfg s → Reach cfg (PressCloseButton s)

end Split

/-- A concrete configuration used by witnesses and counterexamples:
1 s cruise, 1.5 s edge, 0.5 s door speed, 3 s open hold, 5 s reopen hold,
floors 1..10 starting at 1, 1000 kg limit, no explicit floor configs
(time unit: ms for readability). -/
def cfgA : Config :=
  { travelTime := 1000
    travelTimeEdge := 1500
    doorSpeed := 500
    doorOpenTime := 3000
    doorReopenTime := 5000
    initialFloor := 1
    minFloor := 1
    maxFloor := 10
    maxWeight := 1000
    floorConfigs := fun _ => none }

/-- `cfgA` with an initial floor far outside `[minFloor, maxFloor]`. -/
def cfgBad : Config := { cfgA with initialFloor := 20 }

/-- `cfgA` with `minFloor > maxFloor`. -/
def cfgBad2 : Config := { cfgA with minFloor := 5, maxFloor := 2 }

/-- The initial state of the monolithic engine under `cfgA`. -/
def c1s0 : Mono.ElevState := (Mono.New cfgA).toOption.getD default

/-- After `AddCall(2)`. -/
def c1s1 : Mono.ElevState := (Mono.AddCall 2 c1s0).1

/-- After one engine tick: moving up towards floor 2. -/
def c1s2 : Mono.ElevState := Mono.step [2] c1s1

/-- After the travel timer fires: arrived at floor 2, front door `Opening`,
direction still `Up`. -/
def c1s3 : Mono.ElevState := Mono.fireTravel [2] c1s2

/-- After pressing (and holding) the OPEN button while the door is `Opening`. -/
def c6s4 : Mono.ElevState := Mono.PressOpenButton c1s3

/-- After the door timer fires: front door `Open`, hold timer armed. -/
def c6s5 : Mono.ElevState := Mono.fireDoor c6s4

/-- After loading 1500 kg: overloaded (limit 1000) with the OPEN button held. -/
def c6s6 : Mono.ElevState := Mono.AddWeight 1500 c6s5

/-- The initial state of the split engine under `cfgA`. -/
def c3s0 : Split.SplitState := (Split.New cfgA).toOption.getD default

/-- After `AddCall(2)` on the split engine. -/
def c3s1 : Split.SplitState := (Split.AddCall 2 c3s0).1

/-- After one split-engine tick: moving up, travel timer armed. -/
def c4s2 : Split.SplitState := Split.step [2] c3s1

/-- After the split travel timer fires: arrived at floor 2. -/
def c4s3 : Split.SplitState := Split.fireTravel [2] c4s2

/-- Monolith: after `AddCall(3)` on the initial state (for the travel-duration
continuation witness). -/
def c3t0 : Mono.ElevState := (Mono.AddCall 3 c1s0).1

/-- After one tick: moving up towards 3, armed with the edge duration (from rest). -/
def c3t1 : Mono.ElevState := Mono.step [3] c3t0

/-- After the travel timer fires at floor 2: one floor left, re-armed with the
edge duration. -/
def c3t2 : Mono.ElevState := Mono.fireTravel [3] c3t1

/-- A split-engine state with the front door `Open` and an overload
(1500 kg > 1000 kg limit), for the overload-guard witness. -/
def c6w : Split.SplitState := { (Split.fireDoor c4s3) with weight := 1500 }

example : Mono.New cfgA = .ok c1s0 := rfl

example : c1s1.callFloors = ({2} : Finset Int) := by decide

example : c1s2.direction = Direction.Up ∧ c1s2.isMoving = true ∧
    c1s2.travelTimer = some 1500 := by decide

example : c1s3.direction = Direction.Up ∧ c1s3.doorFront = DoorState.Opening ∧
    c1s3.floor = 2 ∧ c1s3.isMoving = false ∧ c1s3.doorTimer = some 500 ∧
    c1s3.callFloors = (∅ : Finset Int) := by decide

example : c6s5.doorFront = DoorState.Open ∧ c6s5.doorTimer = some 3000 ∧
    c6s5.openWaitTime = 3000 := by decide

example : c6s6.weight = 1500 ∧ c6s6.isOpenButtonPressed = true := by decide

example : (Mono.fireDoor c6s6).doorTimer = some 5000 := by decide

example : c4s2.direction = Direction.Up ∧ c4s2.isMoving = true ∧
    c4s2.travelTimer = some 1000 := by decide

example : c4s3.floor = 2 ∧ c4s3.doorFront = DoorState.Opening ∧
    c4s3.isMoving = false := by decide

example : (Split.Reset c4s3).floor = 1 := by decide

/-! ### Lemmas about the scheduler loops -/

theorem scanStep_min_le (p : Int → Bool) (d : Int → Int) (acc : Int × Int × Bool)
    (f : Int) : (scanStep p d acc f).1 ≤ acc.1 := by
  unfold scanStep
  split_ifs with h1 h2
  · exact le_of_lt h2
  · exact le_refl _
  · exact le_refl _

theorem scanGo_found_mono (p : Int → Bool) (d : Int → Int) (l : List Int) :
    ∀ acc : Int × Int × Bool, acc.2.2 = true → (scanGo p d acc l).2.2 = true := by
  induction l with
  | nil => exact fun _ h => h
  | cons f rest ih =>
      intro acc h
      apply ih
      unfold scanStep
      split_ifs <;> simp [h]

theorem scanGo_min_le (p : Int → Bool) (d : Int → Int) (l : List Int) :
    ∀ acc : Int × Int × Bool, (scanGo p d acc l).1 ≤ acc.1 := by
  induction l with
  | nil => exact fun _ => le_refl _
  | cons f rest ih =>
      intro acc
      exact le_trans (ih _) (scanStep_min_le p d acc f)

theorem scanGo_le_of_mem (p : Int → Bool) (d : Int → Int) (f : Int) (hp : p f = true) :
    ∀ (l : List Int) (acc : Int × Int × Bool), f ∈ l → (scanGo p d acc l).1 ≤ d f := by
  intro l
  induction l with
  | nil => intro acc hf; cases hf
  | cons g rest ih =>
      intro acc hf
      rcases List.mem_cons.mp hf with rfl | hf'
      · refine le_trans (scanGo_min_le p d rest _) ?_
        unfold scanStep
        rw [if_pos hp]
        split_ifs with h2
        · exact le_refl _
        · exact le_of_not_lt h2
      · exact ih _ hf'

theorem scanGo_charac (p : Int → Bool) (d : Int → Int) (l : List Int) :
    ∀ acc : Int × Int × Bool,
      scanGo p d acc l = acc ∨
        ((scanGo p d acc l).2.1 ∈ l ∧ p (scanGo p d acc l).2.1 = true ∧
          (scanGo p d acc l).1 = d (scanGo p d acc l).2.1 ∧
          (scanGo p d acc l).2.2 = true ∧ (scanGo p d acc l).1 < acc.1) := by
  induction l with
  | nil => exact fun _ => Or.inl rfl
  | cons f rest ih =>
      intro acc
      have hdefn : scanGo p d acc (f :: rest) = scanGo p d (scanStep p d acc f) rest := rfl
      rw [hdefn]
      rcases ih (scanStep p d acc f) with h | h
      · rw [h]
        unfold scanStep
        split_ifs with h1 h2
        · exact Or.inr ⟨List.mem_cons_self f rest, h1, rfl, rfl, h2⟩
        · exact Or.inl rfl
        · exact Or.inl rfl
      · refine Or.inr ?_
        exact ⟨List.mem_cons_of_mem f h.1, h.2.1, h.2.2.1, h.2.2.2.1,
          lt_of_lt_of_le h.2.2.2.2 (scanStep_min_le p d acc f)⟩

theorem scanGo_found_of_lt (p : Int → Bool) (d : Int → Int) (f : Int) (hp : p f = true) :
    ∀ (l : List Int) (acc : Int × Int × Bool), f ∈ l → d f < acc.1 →
      (scanGo p d acc l).2.2 = true := by
  intro l
  induction l with
  | nil => intro acc hf _; cases hf
  | cons g rest ih =>
      intro acc hf hlt
      show (scanGo p d (scanStep p d acc g) rest).2.2 = true
      rcases List.mem_cons.mp hf with rfl | hf'
      · have hstep : (scanStep p d acc f).2.2 = true := by
          unfold scanStep
          rw [if_pos hp, if_pos hlt]
        exact scanGo_found_mono p d rest _ hstep
      · by_cases hfound : (scanStep p d acc g).2.2 = true
        · exact scanGo_found_mono p d rest _ hfound
        · have hacc : scanStep p d acc g = acc := by
            unfold scanStep at hfound ⊢
            split_ifs at hfound ⊢ with h1 h2
            · simp at hfound
            · rfl
            · rfl
          rw [hacc]
          exact ih acc hf' hlt

theorem scanMin_found_spec (p : Int → Bool) (d : Int → Int) (l : List Int)
    (h : (scanMin p d l).2.2 = true) :
    (scanMin p d l).2.1 ∈ l ∧ p (scanMin p d l).2.1 = true ∧
      (scanMin p d l).1 = d (scanMin p d l).2.1 ∧ (scanMin p d l).1 < maxInt64 := by
  rcases scanGo_charac p d l (maxInt64, -1, false) with hc | hc
  · rw [show scanMin p d l = scanGo p d (maxInt64, -1, false) l from rfl, hc] at h
    simp at h
  · exact ⟨hc.1, hc.2.1, hc.2.2.1, hc.2.2.2.2⟩

theorem scanMin_min (p : Int → Bool) (d : Int → Int) (l : List Int)
    (h : (scanMin p d l).2.2 = true) (f : Int) (hf : f ∈ l) (hp : p f = true) :
    d (scanMin p d l).2.1 ≤ d f := by
  have hspec := scanMin_found_spec p d l h
  calc d (scanMin p d l).2.1 = (scanMin p d l).1 := hspec.2.2.1.symm
    _ ≤ d f := scanGo_le_of_mem p d f hp l _ hf

theorem scanMin_found_of (p : Int → Bool) (d : Int → Int) (l : List Int)
    (f : Int) (hf : f ∈ l) (hp : p f = true) (hb : d f < maxInt64) :
    (scanMin p d l).2.2 = true :=
  scanGo_found_of_lt p d f hp l (maxInt64, -1, false) hf hb

theorem scanMin_det (p : Int → Bool) (d : Int → Int) (l1 l2 : List Int)
    (hmem : ∀ f : Int, f ∈ l1 ↔ f ∈ l2)
    (hinj : ∀ a b : Int, a ∈ l1 → b ∈ l1 → p a = true → p b = true → d a = d b → a = b) :
    (scanMin p d l1).2.2 = (scanMin p d l2).2.2 ∧
      ((scanMin p d l1).2.2 = true → (scanMin p d l1).2.1 = (scanMin p d l2).2.1) := by
  have key : ∀ h1 : (scanMin p d l1).2.2 = true, (scanMin p d l2).2.2 = true := by
    intro h1
    have hs := scanMin_found_spec p d l1 h1
    exact scanMin_found_of p d l2 _ ((hmem _).mp hs.1) hs.2.1 (hs.2.2.1 ▸ hs.2.2.2)
  have key2 : ∀ h2 : (scanMin p d l2).2.2 = true, (scanMin p d l1).2.2 = true := by
    intro h2
    have hs := scanMin_found_spec p d l2 h2
    exact scanMin_found_of p d l1 _ ((hmem _).mpr hs.1) hs.2.1 (hs.2.2.1 ▸ hs.2.2.2)
  constructor
  · cases h1 : (scanMin p d l1).2.2
    · cases h2 : (scanMin p d l2).2.2
      · rfl
      · exact absurd (key2 h2) (by simp [h1])
    · exact (key h1).symm
  · intro h1
    have h2 := key h1
    have hs1 := scanMin_found_spec p d l1 h1
    have hs2 := scanMin_found_spec p d l2 h2
    have hle1 : d (scanMin p d l1).2.1 ≤ d (scanMin p d l2).2.1 :=
      scanMin_min p d l1 h1 _ ((hmem _).mpr hs2.1) hs2.2.1
    have hle2 : d (scanMin p d l2).2.1 ≤ d (scanMin p d l1).2.1 :=
      scanMin_min p d l2 h2 _ ((hmem _).mp hs1.1) hs1.2.1
    exact hinj _ _ hs1.1 ((hmem _).mpr hs2.1) hs1.2.1 hs2.2.1 (le_antisymm hle1 hle2)

/-! ### Frame lemmas for the monolithic engine primitives -/

@[simp] theorem mono_publishEvent_config (ev : Event) (s : Mono.ElevState) :
    (Mono.publishEvent ev s).config = s.config := rfl

@[simp] theorem mono_publishEvent_callFloors (ev : Event) (s : Mono.ElevState) :
    (Mono.publishEvent ev s).callFloors = s.callFloors := rfl

@[simp] theorem mono_publishEvent_isMoving (ev : Event) (s : Mono.ElevState) :
    (Mono.publishEvent ev s).isMoving = s.isMoving := rfl

@[simp] theorem mono_setFloor_config (f : Int) (s : Mono.ElevState) :
    (Mono.setFloor f s).config = s.config := by
  unfold Mono.setFloor Mono.publishEvent
  split_ifs <;> rfl

@[simp] theorem mono_setFloor_callFloors (f : Int) (s : Mono.ElevState) :
    (Mono.setFloor f s).callFloors = s.callFloors := by
  unfold Mono.setFloor Mono.publishEvent
  split_ifs <;> rfl

@[simp] theorem mono_setFloor_direction (f : Int) (s : Mono.ElevState) :
    (Mono.setFloor f s).direction = s.direction := by
  unfold Mono.setFloor Mono.publishEvent
  split_ifs <;> rfl

@[simp] theorem mono_setFloor_isMoving (f : Int) (s : Mono.ElevState) :
    (Mono.setFloor f s).isMoving = s.isMoving := by
  unfold Mono.setFloor Mono.publishEvent
  split_ifs <;> rfl

@[simp] theorem mono_setFloor_doorFront (f : Int) (s : Mono.ElevState) :
    (Mono.setFloor f s).doorFront = s.doorFront := by
  unfold Mono.setFloor Mono.publishEvent
  split_ifs <;> rfl

@[simp] theorem mono_setFloor_doorRear (f : Int) (s : Mono.ElevState) :
    (Mono.setFloor f s).doorRear = s.doorRear := by
  unfold Mono.setFloor Mono.publishEvent
  split_ifs <;> rfl

@[simp] theorem mono_setDirection_config (d : Direction) (s : Mono.ElevState) :
    (Mono.setDirection d s).config = s.config := by
  unfold Mono.setDirection Mono.publishEvent
  split_ifs <;> rfl

@[simp] theorem mono_setDirection_callFloors (d : Direction) (s : Mono.ElevState) :
    (Mono.setDirection d s).callFloors = s.callFloors := by
  unfold Mono.setDirection Mono.publishEvent
  split_ifs <;> rfl

@[simp] theorem mono_setDirection_floor (d : Direction) (s : Mono.ElevState) :
    (Mono.setDirection d s).floor = s.floor := by
  unfold Mono.setDirection Mono.publishEvent
  split_ifs <;> rfl

@[simp] theorem mono_setDirection_isMoving (d : Direction) (s : Mono.ElevState) :
    (Mono.setDirection d s).isMoving = s.isMoving := by
  unfold Mono.setDirection Mono.publishEvent
  split_ifs <;> rfl

@[simp] theorem mono_setDirection_direction (d : Direction) (s : Mono.ElevState) :
    (Mono.setDirection d s).direction = d := by
  unfold Mono.setDirection Mono.publishEvent
  split_ifs with h
  · exact h
  · rfl

@[simp] theorem mono_setDirection_doorFront (d : Direction) (s : Mono.ElevState) :
    (Mono.setDirection d s).doorFront = s.doorFront := by
  unfold Mono.setDirection Mono.publishEvent
  split_ifs <;> rfl

@[simp] theorem mono_setDirection_doorRear (d : Direction) (s : Mono.ElevState) :
    (Mono.setDirection d s).doorRear = s.doorRear := by
  unfold Mono.setDirection Mono.publishEvent
  split_ifs <;> rfl

@[simp] theorem mono_setDoor_config (side : Nat) (st : DoorState) (s : Mono.ElevState) :
    (Mono.setDoor side st s).config = s.config := by
  unfold Mono.setDoor Mono.publishEvent
  split_ifs <;> rfl

@[simp] theorem mono_setDoor_callFloors (side : Nat) (st : DoorState) (s : Mono.ElevState) :
    (Mono.setDoor side st s).callFloors = s.callFloors := by
  unfold Mono.setDoor Mono.publishEvent
  split_ifs <;> rfl

@[simp] theorem mono_setDoor_floor (side : Nat) (st : DoorState) (s : Mono.ElevState) :
    (Mono.setDoor side st s).floor = s.floor := by
  unfold Mono.setDoor Mono.publishEvent
  split_ifs <;> rfl

@[simp] theorem mono_setDoor_direction (side : Nat) (st : DoorState) (s : Mono.ElevState) :
    (Mono.setDoor side st s).direction = s.direction := by
  unfold Mono.setDoor Mono.publishEvent
  split_ifs <;> rfl

@[simp] theorem mono_setDoor_isMoving (side : Nat) (st : DoorState) (s : Mono.ElevState) :
    (Mono.setDoor side st s).isMoving = s.isMoving := by
  unfold Mono.setDoor Mono.publishEvent
  split_ifs <;> rfl

@[simp] theorem mono_setDoor_weight (side : Nat) (st : DoorState) (s : Mono.ElevState) :
    (Mono.setDoor side st s).weight = s.weight := by
  unfold Mono.setDoor Mono.publishEvent
  split_ifs <;> rfl

theorem mono_handleArrival_config (f : Int) (s : Mono.ElevState) :
    (Mono.handleArrival f s).config = s.config := by
  simp only [Mono.handleArrival]
  split_ifs <;> simp

theorem mono_handleArrival_callFloors (f : Int) (s : Mono.ElevState) :
    (Mono.handleArrival f s).callFloors = s.callFloors.erase f := by
  simp only [Mono.handleArrival]
  split_ifs <;> simp

theorem mono_handleArrival_isMoving (f : Int) (s : Mono.ElevState) :
    (Mono.handleArrival f s).isMoving = s.isMoving := by
  simp only [Mono.handleArrival]
  split_ifs <;> simp

theorem finsetSubset_of_eq (s t : Finset Int) (h : s = t) : s ⊆ t := by
  rw [h]

theorem mono_step_frame (order : List Int) (s : Mono.ElevState) :
    (Mono.step order s).config = s.config ∧
      (Mono.step order s).callFloors ⊆ s.callFloors := by
  unfold Mono.step
  dsimp only
  repeat' split
  all_goals
    simp [mono_handleArrival_config, mono_handleArrival_callFloors,
      Finset.erase_subset, Finset.Subset.refl]

theorem mono_handleMove_frame (order : List Int) (s : Mono.ElevState) :
    (Mono.handleMove order s).1.config = s.config ∧
      (Mono.handleMove order s).1.callFloors ⊆ s.callFloors := by
  unfold Mono.handleMove
  dsimp only
  repeat' split
  all_goals
    simp [mono_handleArrival_config, mono_handleArrival_callFloors,
      Finset.erase_subset, Finset.Subset.refl]

theorem mono_fireTravel_frame (order : List Int) (s : Mono.ElevState) :
    (Mono.fireTravel order s).config = s.config ∧
      (Mono.fireTravel order s).callFloors ⊆ s.callFloors := by
  unfold Mono.fireTravel
  dsimp only
  have h := mono_handleMove_frame order { s with travelTimer := none }
  split_ifs with hc
  · exact ⟨h.1, h.2⟩
  · exact ⟨h.1, h.2⟩

theorem mono_handleDoorTimeout_frame (s : Mono.ElevState) :
    (Mono.handleDoorTimeout s).config = s.config ∧
      (Mono.handleDoorTimeout s).callFloors = s.callFloors := by
  unfold Mono.handleDoorTimeout
  dsimp only
  repeat' split
  all_goals simp

theorem mono_fireDoor_frame (s : Mono.ElevState) :
    (Mono.fireDoor s).config = s.config ∧
      (Mono.fireDoor s).callFloors = s.callFloors := by
  unfold Mono.fireDoor
  exact mono_handleDoorTimeout_frame { s with doorTimer := none }

theorem mono_pressOpen_frame (s : Mono.ElevState) :
    (Mono.PressOpenButton s).config = s.config ∧
      (Mono.PressOpenButton s).callFloors = s.callFloors := by
  unfold Mono.PressOpenButton
  dsimp only
  repeat' split
  all_goals simp

theorem mono_releaseOpen_frame (s : Mono.ElevState) :
    (Mono.ReleaseOpenButton s).config = s.config ∧
      (Mono.ReleaseOpenButton s).callFloors = s.callFloors := by
  unfold Mono.ReleaseOpenButton
  dsimp only
  split_ifs <;> exact ⟨rfl, rfl⟩

theorem mono_pressClose_frame (s : Mono.ElevState) :
    (Mono.PressCloseButton s).config = s.config ∧
      (Mono.PressCloseButton s).callFloors = s.callFloors := by
  unfold Mono.PressCloseButton
  split_ifs <;> exact ⟨rfl, rfl⟩

theorem mono_setMode_frame (m : OperationMode) (s : Mono.ElevState) :
    (Mono.SetMode m s).config = s.config ∧
      (Mono.SetMode m s).callFloors = s.callFloors := by
  unfold Mono.SetMode
  dsimp only
  repeat' split
  all_goals simp

theorem mono_reset_frame (s : Mono.ElevState) :
    (Mono.Reset s).config = s.config ∧ (Mono.Reset s).callFloors = ∅ := by
  unfold Mono.Reset
  exact ⟨by simp, by simp⟩

theorem mono_callsValid_of (s s' : Mono.ElevState) (hc : s'.config = s.config)
    (hsub : s'.callFloors ⊆ s.callFloors) (h : Mono.CallsValid s) : Mono.CallsValid s' := by
  intro f hf
  rw [hc]
  exact h f (hsub hf)

theorem mono_addCall_callsValid (f : Int) (s : Mono.ElevState) (h : Mono.CallsValid s) :
    Mono.CallsValid (Mono.AddCall f s).1 := by
  simp only [Mono.AddCall]
  split_ifs with h1 h2 h3
  · exact h
  · exact h
  · exact h
  · intro g hg
    simp only [] at hg
    rcases Finset.mem_insert.mp hg with rfl | hg'
    · push_neg at h1
      refine ⟨h1.1, h1.2, ?_⟩
      simpa using h2
    · exact h g hg'

theorem mono_reach_callsValid (cfg : Config) (s : Mono.ElevState) (h : Mono.Reach cfg s) :
    Mono.CallsValid s := by
  induction h with
  | init s hnew =>
      intro g hg
      unfold Mono.New at hnew
      split_ifs at hnew
      simp only [Except.ok.injEq] at hnew
      rw [← hnew] at hg
      exact absurd (hg : g ∈ (∅ : Finset Int)) (Finset.not_mem_empty g)
  | tick s order hr hvo ih =>
      exact mono_callsValid_of _ _ (mono_step_frame order s).1 (mono_step_frame order s).2 ih
  | travelFire s order d hr ht hvo ih =>
      exact mono_callsValid_of _ _ (mono_fireTravel_frame order s).1
        (mono_fireTravel_frame order s).2 ih
  | doorFire s d hr ht ih =>
      exact mono_callsValid_of _ _ (mono_fireDoor_frame s).1
        (le_of_eq (mono_fireDoor_frame s).2) ih
  | addCall s f hr ih => exact mono_addCall_callsValid f s ih
  | removeCall s f hr ih =>
      exact mono_callsValid_of s (Mono.RemoveCall f s) rfl (Finset.erase_subset f s.callFloors) ih
  | clearCalls s hr ih =>
      exact mono_callsValid_of s (Mono.ClearCalls s) rfl (Finset.empty_subset _) ih
  | reset s hr ih =>
      refine mono_callsValid_of _ _ (mono_reset_frame s).1 ?_ ih
      rw [(mono_reset_frame s).2]
      exact Finset.empty_subset _
  | setMode s m hr ih =>
      exact mono_callsValid_of _ _ (mono_setMode_frame m s).1
        (le_of_eq (mono_setMode_frame m s).2) ih
  | addWeight s w hr ih =>
      exact mono_callsValid_of s (Mono.AddWeight w s) rfl (Finset.Subset.refl _) ih
  | setDoorManual s side st hr ih =>
      exact mono_callsValid_of _ _ (mono_setDoor_config side st s)
        (le_of_eq (mono_setDoor_callFloors side st s)) ih
  | pressOpen s hr ih =>
      exact mono_callsValid_of _ _ (mono_pressOpen_frame s).1
        (le_of_eq (mono_pressOpen_frame s).2) ih
  | releaseOpen s hr ih =>
      exact mono_callsValid_of _ _ (mono_releaseOpen_frame s).1
        (le_of_eq (mono_releaseOpen_frame s).2) ih
  | pressClose s hr ih =>
      exact mono_callsValid_of _ _ (mono_pressClose_frame s).1
        (le_of_eq (mono_pressClose_frame s).2) ih

/-! ### Additional projection lemmas for doors -/

theorem mono_setDoor_front_self (st : DoorState) (s : Mono.ElevState) :
    (Mono.setDoor Front st s).doorFront = st := by
  unfold Mono.setDoor Mono.publishEvent
  rw [if_pos rfl]
  split_ifs with h
  · exact h
  · rfl

theorem mono_setDoor_front_of_rear (st : DoorState) (s : Mono.ElevState) :
    (Mono.setDoor Rear st s).doorFront = s.doorFront := by
  unfold Mono.setDoor Mono.publishEvent
  rw [if_neg (by decide), if_pos rfl]
  split_ifs <;> rfl

theorem mono_setDoor_rear_self (st : DoorState) (s : Mono.ElevState) :
    (Mono.setDoor Rear st s).doorRear = st := by
  unfold Mono.setDoor Mono.publishEvent
  rw [if_neg (by decide), if_pos rfl]
  split_ifs with h
  · exact h
  · rfl

theorem mono_setDoor_rear_of_front (st : DoorState) (s : Mono.ElevState) :
    (Mono.setDoor Front st s).doorRear = s.doorRear := by
  unfold Mono.setDoor Mono.publishEvent
  rw [if_pos rfl]
  split_ifs <;> rfl

@[simp] theorem split_publishEvent_floor (ev : Event) (s : Split.SplitState) :
    (Split.publishEvent ev s).floor = s.floor := rfl

@[simp] theorem split_publishEvent_direction (ev : Event) (s : Split.SplitState) :
    (Split.publishEvent ev s).direction = s.direction := rfl

@[simp] theorem split_publishEvent_doorFront (ev : Event) (s : Split.SplitState) :
    (Split.publishEvent ev s).doorFront = s.doorFront := rfl

@[simp] theorem split_publishEvent_doorRear (ev : Event) (s : Split.SplitState) :
    (Split.publishEvent ev s).doorRear = s.doorRear := rfl

@[simp] theorem split_publishEvent_calls (ev : Event) (s : Split.SplitState) :
    (Split.publishEvent ev s).calls = s.calls := rfl

@[simp] theorem split_publishEvent_logicCfg (ev : Event) (s : Split.SplitState) :
    (Split.publishEvent ev s).logicCfg = s.logicCfg := rfl

@[simp] theorem split_setFloor_calls (f : Int) (s : Split.SplitState) :
    (Split.setFloor f s).calls = s.calls := by
  unfold Split.setFloor
  split_ifs <;> simp

@[simp] theorem split_setFloor_logicCfg (f : Int) (s : Split.SplitState) :
    (Split.setFloor f s).logicCfg = s.logicCfg := by
  unfold Split.setFloor
  split_ifs <;> simp

@[simp] theorem split_setDirection_calls (d : Direction) (s : Split.SplitState) :
    (Split.setDirection d s).calls = s.calls := by
  unfold Split.setDirection
  split_ifs <;> simp

@[simp] theorem split_setDirection_logicCfg (d : Direction) (s : Split.SplitState) :
    (Split.setDirection d s).logicCfg = s.logicCfg := by
  unfold Split.setDirection
  split_ifs <;> simp

@[simp] theorem split_setDoor_calls (side : Nat) (st : DoorState) (s : Split.SplitState) :
    (Split.setDoor side st s).calls = s.calls := by
  unfold Split.setDoor
  split_ifs <;> simp

@[simp] theorem split_setDoor_logicCfg (side : Nat) (st : DoorState) (s : Split.SplitState) :
    (Split.setDoor side st s).logicCfg = s.logicCfg := by
  unfold Split.setDoor
  split_ifs <;> simp

theorem split_handleArrival_logicCfg (f : Int) (s : Split.SplitState) :
    (Split.handleArrival f s).logicCfg = s.logicCfg := by
  simp only [Split.handleArrival]
  split_ifs <;> simp

theorem split_handleArrival_calls (f : Int) (s : Split.SplitState) :
    (Split.handleArrival f s).calls = s.calls.erase f := by
  simp only [Split.handleArrival]
  split_ifs <;> simp

theorem split_step_frame (order : List Int) (s : Split.SplitState) :
    (Split.step order s).logicCfg = s.logicCfg ∧
      (Split.step order s).calls ⊆ s.calls := by
  unfold Split.step
  dsimp only
  repeat' split
  all_goals
    simp [split_handleArrival_logicCfg, split_handleArrival_calls,
      Finset.erase_subset, Finset.Subset.refl]

theorem split_handleMoveComplete_frame (order : List Int) (s : Split.SplitState) :
    (Split.handleMoveComplete order s).1.logicCfg = s.logicCfg ∧
      (Split.handleMoveComplete order s).1.calls ⊆ s.calls := by
  unfold Split.handleMoveComplete
  dsimp only
  repeat' split
  all_goals
    simp [split_handleArrival_logicCfg, split_handleArrival_calls,
      Finset.erase_subset, Finset.Subset.refl]

theorem split_fireTravel_frame (order : List Int) (s : Split.SplitState) :
    (Split.fireTravel order s).logicCfg = s.logicCfg ∧
      (Split.fireTravel order s).calls ⊆ s.calls := by
  unfold Split.fireTravel
  dsimp only
  have h := split_handleMoveComplete_frame order { s with travelTimer := none }
  split_ifs with hc
  · exact ⟨h.1, h.2⟩
  · exact ⟨h.1, h.2⟩

theorem split_handleDoorTimeout_frame (s : Split.SplitState) :
    (Split.handleDoorTimeout s).logicCfg = s.logicCfg ∧
      (Split.handleDoorTimeout s).calls = s.calls := by
  unfold Split.handleDoorTimeout
  dsimp only
  repeat' split
  all_goals simp

theorem split_fireDoor_frame (s : Split.SplitState) :
    (Split.fireDoor s).logicCfg = s.logicCfg ∧
      (Split.fireDoor s).calls = s.calls := by
  unfold Split.fireDoor
  exact split_handleDoorTimeout_frame { s with doorTimer := none }

theorem split_pressOpen_frame (s : Split.SplitState) :
    (Split.PressOpenButton s).logicCfg = s.logicCfg ∧
      (Split.PressOpenButton s).calls = s.calls := by
  unfold Split.PressOpenButton
  dsimp only
  repeat' split
  all_goals simp

theorem split_releaseOpen_frame (s : Split.SplitState) :
    (Split.ReleaseOpenButton s).logicCfg = s.logicCfg ∧
      (Split.ReleaseOpenButton s).calls = s.calls :=
  ⟨rfl, rfl⟩

theorem split_pressClose_frame (s : Split.SplitState) :
    (Split.PressCloseButton s).logicCfg = s.logicCfg ∧
      (Split.PressCloseButton s).calls = s.calls := by
  unfold Split.PressCloseButton
  split_ifs <;> exact ⟨rfl, rfl⟩

theorem split_setMode_frame (m : OperationMode) (s : Split.SplitState) :
    (Split.SetMode m s).logicCfg = s.logicCfg ∧
      (Split.SetMode m s).calls = s.calls := by
  unfold Split.SetMode
  dsimp only
  repeat' split
  all_goals simp

theorem split_reset_calls (s : Split.SplitState) :
    (Split.Reset s).calls = ∅ := by
  unfold Split.Reset
  simp

theorem split_callsValid_of (s s' : Split.SplitState) (hc : s'.logicCfg = s.logicCfg)
    (hsub : s'.calls ⊆ s.calls) (h : Split.CallsValid s) : Split.CallsValid s' := by
  intro f hf
  rw [hc]
  exact h f (hsub hf)

theorem split_addCall_callsValid (f : Int) (s : Split.SplitState) (h : Split.CallsValid s) :
    Split.CallsValid (Split.AddCall f s).1 := by
  simp only [Split.AddCall]
  split_ifs with h1 h2
  · exact h
  · exact h
  · intro g hg
    simp only [] at hg
    rcases Finset.mem_insert.mp hg with rfl | hg'
    · push_neg at h1
      refine ⟨h1.1, h1.2, ?_⟩
      simpa using h2
    · exact h g hg'

theorem split_reach_callsValid (cfg : Config) (s : Split.SplitState) (h : Split.Reach cfg s) :
    Split.CallsValid s := by
  induction h with
  | init s hnew =>
      intro g hg
      unfold Split.New at hnew
      dsimp only at hnew
      split_ifs at hnew
      all_goals
        simp only [Except.ok.injEq] at hnew
        rw [← hnew] at hg
        exact absurd (hg : g ∈ (∅ : Finset Int)) (Finset.not_mem_empty g)
  | tick s order hr hvo ih =>
      exact split_callsValid_of _ _ (split_step_frame order s).1 (split_step_frame order s).2 ih
  | travelFire s order d hr ht hvo ih =>
      exact split_callsValid_of _ _ (split_fireTravel_frame order s).1
        (split_fireTravel_frame order s).2 ih
  | doorFire s d hr ht ih =>
      exact split_callsValid_of _ _ (split_fireDoor_frame s).1
        (le_of_eq (split_fireDoor_frame s).2) ih
  | addCall s f hr ih => exact split_addCall_callsValid f s ih
  | removeCall s f hr ih =>
      exact split_callsValid_of s (Split.RemoveCall f s) rfl (Finset.erase_subset f s.calls) ih
  | clearCalls s hr ih =>
      exact split_callsValid_of s (Split.ClearCalls s) rfl (Finset.empty_subset _) ih
  | reset s hr ih =>
      intro g hg
      rw [split_reset_calls s] at hg
      exact absurd hg (Finset.not_mem_empty g)
  | setMode s m hr ih =>
      exact split_callsValid_of _ _ (split_setMode_frame m s).1
        (le_of_eq (split_setMode_frame m s).2) ih
  | addWeight s w hr ih =>
      exact split_callsValid_of s (Split.AddWeight w s) rfl (Finset.Subset.refl _) ih
  | setDoorManual s side st hr ih =>
      exact split_callsValid_of _ _ (split_setDoor_logicCfg side st s)
        (le_of_eq (split_setDoor_calls side st s)) ih
  | pressOpen s hr ih =>
      exact split_callsValid_of _ _ (split_pressOpen_frame s).1
        (le_of_eq (split_pressOpen_frame s).2) ih
  | releaseOpen s hr ih =>
      exact split_callsValid_of _ _ (split_releaseOpen_frame s).1
        (le_of_eq (split_releaseOpen_frame s).2) ih
  | pressClose s hr ih =>
      exact split_callsValid_of _ _ (split_pressClose_frame s).1
        (le_of_eq (split_pressClose_frame s).2) ih

/-! ### Reachability of the concrete trace states -/

theorem reach_c1s0 : Mono.Reach cfgA c1s0 :=
  Mono.Reach.init c1s0 rfl

theorem validOrder_c1s1 : Mono.ValidOrder c1s1 [2] := by
  refine ⟨by decide, ?_⟩
  have hcf : c1s1.callFloors = ({2} : Finset Int) := by decide
  intro f
  rw [hcf]
  simp

theorem reach_c1s1 : Mono.Reach cfgA c1s1 :=
  Mono.Reach.addCall c1s0 2 reach_c1s0

theorem validOrder_c1s2 : Mono.ValidOrder c1s2 [2] := by
  refine ⟨by decide, ?_⟩
  have hcf : c1s2.callFloors = ({2} : Finset Int) := by decide
  intro f
  rw [hcf]
  simp

theorem reach_c1s2 : Mono.Reach cfgA c1s2 :=
  Mono.Reach.tick c1s1 [2] reach_c1s1 validOrder_c1s1

theorem reach_c1s3 : Mono.Reach cfgA c1s3 :=
  Mono.Reach.travelFire c1s2 [2] 1500 reach_c1s2 (by decide) validOrder_c1s2

theorem reach_c6s4 : Mono.Reach cfgA c6s4 :=
  Mono.Reach.pressOpen c1s3 reach_c1s3

theorem reach_c6s5 : Mono.Reach cfgA c6s5 :=
  Mono.Reach.doorFire c6s4 500 reach_c6s4 (by decide)

theorem reach_c6s6 : Mono.Reach cfgA c6s6 :=
  Mono.Reach.addWeight c6s5 1500 reach_c6s5

theorem sreach_c3s0 : Split.Reach cfgA c3s0 :=
  Split.Reach.init c3s0 rfl

theorem sreach_c3s1 : Split.Reach cfgA c3s1 :=
  Split.Reach.addCall c3s0 2 sreach_c3s0

theorem svalidOrder_c3s1 : Split.ValidOrder c3s1 [2] := by
  refine ⟨by decide, ?_⟩
  have hcf : c3s1.calls = ({2} : Finset Int) := by decide
  intro f
  rw [hcf]
  simp

theorem sreach_c4s2 : Split.Reach cfgA c4s2 :=
  Split.Reach.tick c3s1 [2] sreach_c3s1 svalidOrder_c3s1

theorem svalidOrder_c4s2 : Split.ValidOrder c4s2 [2] := by
  refine ⟨by decide, ?_⟩
  have hcf : c4s2.calls = ({2} : Finset Int) := by decide
  intro f
  rw [hcf]
  simp

theorem sreach_c4s3 : Split.Reach cfgA c4s3 :=
  Split.Reach.travelFire c4s2 [2] 1000 sreach_c4s2 (by decide) svalidOrder_c4s2

/-! ### Claims -/

/-- Claim C1 (counterexample): the safety invariant P1 fails on the code.  The
state `c1s3` is reachable (init at floor 1, call floor 2, one tick, one travel
fire), yet its direction is still `Up` while the front door is `Opening`:
arrival opens the doors without resetting the direction. -/
theorem c1_counterexample :
    Mono.Reach cfgA c1s3 ∧ c1s3.direction = Direction.Up ∧
      c1s3.doorFront = DoorState.Opening :=
  ⟨reach_c1s3, by decide, by decide⟩

/-- Claim C1 (amended): `step` starts motion only from a state in which both
doors are `Close` — if a tick turns the moving flag on, the doors were fully
closed; the reachable-state invariant `direction ∈ {Up, Down} → doors Close`
itself does not hold, because arrival leaves the direction at `Up`/`Down`
while the doors are `Opening` (see the counterexample). -/
theorem c1_amended (order : List Int) (s : Mono.ElevState)
    (h1 : s.isMoving = false) (h2 : (Mono.step order s).isMoving = true) :
    s.doorFront = DoorState.Close ∧ s.doorRear = DoorState.Close := by
  unfold Mono.step at h2
  split_ifs at h2 <;> simp_all

/-- Witness for `c1_amended` at the concrete reachable state `c1s1`. -/
theorem c1_amended_witness :
    c1s1.doorFront = DoorState.Close ∧ c1s1.doorRear = DoorState.Close :=
  c1_amended [2] c1s1 (by decide) (by decide)

/-- Claim C4 (counterexample): the split engine's `Reset` does NOT preserve the
floor: from the reachable state `c4s3` (car physically at floor 2), `Reset`
rebuilds the logic and teleports the floor back to `InitialFloor = 1`. -/
theorem c4_counterexample :
    Split.Reach cfgA c4s3 ∧ c4s3.floor = 2 ∧ (Split.Reset c4s3).floor = 1 ∧
      (Split.Reset c4s3).floor ≠ c4s3.floor :=
  ⟨sreach_c4s3, by decide, by decide, by decide⟩

/-- Claim C4 (amended): in the monolithic engine, `Reset` yields
`direction = None`, both doors `Close` and an empty call set while preserving
the floor, as the claim states; in the split engine `Reset` also clears the
state but resets the floor to `InitialFloor` instead of preserving it. -/
theorem c4_amended :
    (∀ s : Mono.ElevState,
      (Mono.Reset s).direction = Direction.None ∧
      (Mono.Reset s).doorFront = DoorState.Close ∧
      (Mono.Reset s).doorRear = DoorState.Close ∧
      (Mono.Reset s).callFloors = ∅ ∧
      (Mono.Reset s).floor = s.floor) ∧
    (∀ s : Split.SplitState,
      (Split.Reset s).direction = Direction.None ∧
      (Split.Reset s).doorFront = DoorState.Close ∧
      (Split.Reset s).doorRear = DoorState.Close ∧
      (Split.Reset s).calls = ∅ ∧
      (Split.Reset s).floor = s.logicCfg.InitialFloor) := by
  constructor
  · intro s
    unfold Mono.Reset
    refine ⟨?_, ?_, ?_, ?_, ?_⟩
    · rw [mono_setDoor_direction, mono_setDoor_direction, mono_setDirection_direction]
    · rw [mono_setDoor_front_of_rear, mono_setDoor_front_self]
    · rw [mono_setDoor_rear_self]
    · rw [mono_setDoor_callFloors, mono_setDoor_callFloors, mono_setDirection_callFloors]
    · rw [mono_setDoor_floor, mono_setDoor_floor, mono_setDirection_floor]
  · intro s
    unfold Split.Reset
    exact ⟨by simp, by simp, by simp, by simp, by simp [Logic.newLogicCfg]⟩

/-- Claim C9: call-set validity (invariant P3) — in every state of either
engine reachable by any sequence of ticks, timer fires and commands, every
pending call floor lies within the validated floor range and its floor config
is accessible (the monolith validates against its service `Config`, the split
engine against the logic's `LogicConfig`). -/
theorem c9_call_validity :
    (∀ (cfg : Config) (s : Mono.ElevState), Mono.Reach cfg s →
      ∀ f ∈ s.callFloors, s.config.minFloor ≤ f ∧ f ≤ s.config.maxFloor ∧
        ((s.config.floorConfigs f).getD zeroFloorConfig).IsAccessible = true) ∧
    (∀ (cfg : Config) (s : Split.SplitState), Split.Reach cfg s →
      ∀ f ∈ s.calls, s.logicCfg.MinFloor ≤ f ∧ f ≤ s.logicCfg.MaxFloor ∧
        ((s.logicCfg.FloorConfigs f).getD zeroFloorConfig).IsAccessible = true) :=
  ⟨fun cfg s h => mono_reach_callsValid cfg s h,
   fun cfg s h => split_reach_callsValid cfg s h⟩

/-- Witness for `c9_call_validity` at the concrete reachable states `c1s1`
(monolith) and `c3s1` (split), each with the pending call 2. -/
theorem c9_witness :
    (c1s1.config.minFloor ≤ 2 ∧ 2 ≤ c1s1.config.maxFloor ∧
      ((c1s1.config.floorConfigs 2).getD zeroFloorConfig).IsAccessible = true) ∧
    (c3s1.logicCfg.MinFloor ≤ 2 ∧ 2 ≤ c3s1.logicCfg.MaxFloor ∧
      ((c3s1.logicCfg.FloorConfigs 2).getD zeroFloorConfig).IsAccessible = true) :=
  ⟨c9_call_validity.1 cfgA c1s1 reach_c1s1 2 (by decide),
   c9_call_validity.2 cfgA c3s1 sreach_c3s1 2 (by decide)⟩

/-- Claim C10: a door-timer fire while both doors are `Close` is a complete
no-op in both engines: the handler returns the state unchanged (every field,
including the event log — so no event is emitted). -/
theorem c10_door_fire_noop :
    (∀ s : Mono.ElevState, s.doorFront = DoorState.Close → s.doorRear = DoorState.Close →
      Mono.handleDoorTimeout s = s) ∧
    (∀ s : Split.SplitState, s.doorFront = DoorState.Close → s.doorRear = DoorState.Close →
      Split.handleDoorTimeout s = s) := by
  constructor
  · intro s h1 h2
    unfold Mono.handleDoorTimeout Mono.activeDoorState
    rw [h1, h2]
    simp
  · intro s h1 h2
    unfold Split.handleDoorTimeout Split.activeDoorState
    rw [h1, h2]
    simp

/-- Witness for `c10_door_fire_noop` at the concrete initial states. -/
theorem c10_witness :
    Mono.handleDoorTimeout c1s0 = c1s0 ∧ Split.handleDoorTimeout c3s0 = c3s0 :=
  ⟨c10_door_fire_noop.1 c1s0 (by decide) (by decide),
   c10_door_fire_noop.2 c3s0 (by decide) (by decide)⟩

/-- Claim C7: `AddCall` returns an error iff the floor is out of range or its
floor config is inaccessible (the Go map lookup yields the zero value — not
accessible — for a missing entry); on error the state is unchanged; adding a
floor already pending succeeds and is a no-op.  Stated for both engines; the
duplicate case of the monolith is stated over reachable states (where pending
calls are always valid). -/
theorem c7_addCall :
    (∀ (s : Mono.ElevState) (f : Int),
        ((Mono.AddCall f s).2 ≠ none ↔
          (f < s.config.minFloor ∨ f > s.config.maxFloor ∨
            ((s.config.floorConfigs f).getD zeroFloorConfig).IsAccessible = false)) ∧
        ((Mono.AddCall f s).2 ≠ none → (Mono.AddCall f s).1 = s)) ∧
    (∀ (cfg : Config) (s : Mono.ElevState) (f : Int), Mono.Reach cfg s → f ∈ s.callFloors →
        (Mono.AddCall f s).2 = none ∧ (Mono.AddCall f s).1 = s) ∧
    (∀ (s : Split.SplitState) (f : Int),
        ((Split.AddCall f s).2 ≠ none ↔
          (f < s.logicCfg.MinFloor ∨ f > s.logicCfg.MaxFloor ∨
            ((s.logicCfg.FloorConfigs f).getD zeroFloorConfig).IsAccessible = false)) ∧
        ((Split.AddCall f s).2 ≠ none → (Split.AddCall f s).1 = s) ∧
        ((Split.AddCall f s).2 = none → f ∈ s.calls → (Split.AddCall f s).1 = s)) := by
  refine ⟨?_, ?_, ?_⟩
  · intro s f
    simp only [Mono.AddCall]
    split_ifs with h1 h2 h3
    · exact ⟨iff_of_true (by simp) (h1.imp id Or.inl), fun _ => rfl⟩
    · exact ⟨iff_of_true (by simp) (Or.inr (Or.inr h2)), fun _ => rfl⟩
    · refine ⟨iff_of_false (by simp) ?_, fun hne => absurd rfl hne⟩
      intro hor
      rcases hor with h | h | h
      · exact h1 (Or.inl h)
      · exact h1 (Or.inr h)
      · exact h2 h
    · refine ⟨iff_of_false (by simp) ?_, fun hne => absurd rfl hne⟩
      intro hor
      rcases hor with h | h | h
      · exact h1 (Or.inl h)
      · exact h1 (Or.inr h)
      · exact h2 h
  · intro cfg s f hr hf
    have hv := mono_reach_callsValid cfg s hr f hf
    have h1 : ¬(f < s.config.minFloor ∨ f > s.config.maxFloor) := by
      push_neg
      exact ⟨hv.1, hv.2.1⟩
    have h2 : ¬(((s.config.floorConfigs f).getD zeroFloorConfig).IsAccessible = false) := by
      rw [hv.2.2]
      simp
    simp only [Mono.AddCall]
    rw [if_neg h1, if_neg h2, if_pos hf]
    exact ⟨rfl, rfl⟩
  · intro s f
    simp only [Split.AddCall]
    split_ifs with h1 h2
    · refine ⟨iff_of_true (by simp) (h1.imp id Or.inl), fun _ => rfl, ?_⟩
      intro hnone
      exact absurd hnone (by simp)
    · refine ⟨iff_of_true (by simp) (Or.inr (Or.inr h2)), fun _ => rfl, ?_⟩
      intro hnone
      exact absurd hnone (by simp)
    · refine ⟨iff_of_false (by simp) ?_, fun hne => absurd rfl hne, ?_⟩
      · intro hor
        rcases hor with h | h | h
        · exact h1 (Or.inl h)
        · exact h1 (Or.inr h)
        · exact h2 h
      · intro _ hf
        have hins : insert f s.calls = s.calls := Finset.insert_eq_self.2 hf
        rw [hins]

/-- Witness for `c7_addCall`: out-of-range rejection with no state change, a
duplicate no-op on the monolith, and the split-engine rejection. -/
theorem c7_witness :
    (Mono.AddCall 99 c1s0).2 ≠ none ∧ (Mono.AddCall 99 c1s0).1 = c1s0 ∧
      (Mono.AddCall 2 c1s1).2 = none ∧ (Mono.AddCall 2 c1s1).1 = c1s1 ∧
      (Split.AddCall 99 c3s0).2 ≠ none ∧ (Split.AddCall 99 c3s0).1 = c3s0 :=
  ⟨(c7_addCall.1 c1s0 99).1.mpr (by decide),
   (c7_addCall.1 c1s0 99).2 ((c7_addCall.1 c1s0 99).1.mpr (by decide)),
   (c7_addCall.2.1 cfgA c1s1 2 reach_c1s1 (by decide)).1,
   (c7_addCall.2.1 cfgA c1s1 2 reach_c1s1 (by decide)).2,
   (c7_addCall.2.2 c3s0 99).1.mpr (by decide),
   (c7_addCall.2.2 c3s0 99).2.1 ((c7_addCall.2.2 c3s0 99).1.mpr (by decide))⟩

/-- Claim C2 (counterexample): the split scheduler (`pkg/elevator/domain.go`)
uses NON-strict Phase 1 comparisons: with `direction = Up`, `floor = 5` and
pending calls `{5, 8}`, Phase 1 itself selects the current floor 5 (under any
iteration order), whereas the claim requires Phase 1 to consider only calls
strictly above and return 8; the monolith scheduler indeed returns 8. -/
theorem c2_counterexample :
    Logic.selectNextTarget 5 Direction.Up [5, 8] = some 5 ∧
      (Logic.phase1 5 Direction.Up [5, 8]).2.2 = true ∧
      (Logic.phase1 5 Direction.Up [5, 8]).2.1 = 5 ∧
      Logic.selectNextTarget 5 Direction.Up [8, 5] = some 5 ∧
      Mono.selectNextTarget 5 Direction.Up [5, 8] = some 8 := by
  decide

/-- Claim C2 (amended): the monolith scheduler's Phase 1 is strict: with
`direction = Up` it only ever returns a pending call strictly above the
current floor (never the current floor) with the smallest distance, and
symmetrically for `Down`; it finds one whenever a strictly-ahead call exists
(below the `math.MaxInt64` sentinel), and the full scheduler then returns
Phase 1's target.  The split scheduler uses non-strict comparisons instead
(see the counterexample). -/
theorem c2_amended (floor : Int) (calls : List Int) :
    ((Mono.phase1 floor .Up calls).2.2 = true →
      (Mono.phase1 floor .Up calls).2.1 ∈ calls ∧
      (Mono.phase1 floor .Up calls).2.1 > floor ∧
      (Mono.phase1 floor .Up calls).2.1 ≠ floor ∧
      (∀ f ∈ calls, f > floor →
        (Mono.phase1 floor .Up calls).2.1 - floor ≤ f - floor)) ∧
    ((Mono.phase1 floor .Down calls).2.2 = true →
      (Mono.phase1 floor .Down calls).2.1 ∈ calls ∧
      (Mono.phase1 floor .Down calls).2.1 < floor ∧
      (Mono.phase1 floor .Down calls).2.1 ≠ floor ∧
      (∀ f ∈ calls, f < floor →
        floor - (Mono.phase1 floor .Down calls).2.1 ≤ floor - f)) ∧
    ((∃ f ∈ calls, f > floor ∧ f - floor < maxInt64) →
      (Mono.phase1 floor .Up calls).2.2 = true) ∧
    ((∃ f ∈ calls, f < floor ∧ floor - f < maxInt64) →
      (Mono.phase1 floor .Down calls).2.2 = true) ∧
    (∀ dir : Direction, (Mono.phase1 floor dir calls).2.2 = true →
      Mono.selectNextTarget floor dir calls = some (Mono.phase1 floor dir calls).2.1) := by
  refine ⟨?_, ?_, ?_, ?_, ?_⟩
  · intro h
    have hs := scanMin_found_spec (fun f => decide (f > floor)) (fun f => f - floor) calls h
    have hgt : (Mono.phase1 floor .Up calls).2.1 > floor := of_decide_eq_true hs.2.1
    refine ⟨hs.1, hgt, ne_of_gt hgt, ?_⟩
    intro f hf hf2
    exact scanMin_min (fun f => decide (f > floor)) (fun f => f - floor) calls h f hf
      (decide_eq_true hf2)
  · intro h
    have hs := scanMin_found_spec (fun f => decide (f < floor)) (fun f => floor - f) calls h
    have hlt : (Mono.phase1 floor .Down calls).2.1 < floor := of_decide_eq_true hs.2.1
    refine ⟨hs.1, hlt, ne_of_lt hlt, ?_⟩
    intro f hf hf2
    exact scanMin_min (fun f => decide (f < floor)) (fun f => floor - f) calls h f hf
      (decide_eq_true hf2)
  · rintro ⟨f, hf, hgt, hb⟩
    exact scanMin_found_of (fun f => decide (f > floor)) (fun f => f - floor) calls f hf
      (decide_eq_true hgt) hb
  · rintro ⟨f, hf, hlt, hb⟩
    exact scanMin_found_of (fun f => decide (f < floor)) (fun f => floor - f) calls f hf
      (decide_eq_true hlt) hb
  · intro dir h
    have hne : calls ≠ [] := by
      cases dir with
      | Up =>
          exact List.ne_nil_of_mem
            (scanMin_found_spec (fun f => decide (f > floor)) (fun f => f - floor) calls h).1
      | Down =>
          exact List.ne_nil_of_mem
            (scanMin_found_spec (fun f => decide (f < floor)) (fun f => floor - f) calls h).1
      | None => simp [Mono.phase1] at h
    unfold Mono.selectNextTarget
    rw [if_neg hne, if_pos h]

/-- Witness for `c2_amended`: at floor 1 with calls `[3, 2]`, Phase 1 finds a
strictly-above target and the scheduler returns it. -/
theorem c2_amended_witness :
    (Mono.phase1 1 Direction.Up [3, 2]).2.1 > 1 ∧
      Mono.selectNextTarget 1 Direction.Up [3, 2]
        = some (Mono.phase1 1 Direction.Up [3, 2]).2.1 :=
  ⟨((c2_amended 1 [3, 2]).1 (by decide)).2.1,
   (c2_amended 1 [3, 2]).2.2.2.2 Direction.Up (by decide)⟩

/-- Determinism transfer along the two-phase if-chain of `selectNextTarget`,
abstracted over the two phases' results on the two iteration orders. -/
theorem select_chain_det (l1 l2 : List Int) (a1 a2 b1 b2 : Int × Int × Bool)
    (hnil : (l1 = []) ↔ (l2 = []))
    (haflag : a1.2.2 = a2.2.2) (hatgt : a1.2.2 = true → a1.2.1 = a2.2.1)
    (hbflag : b1.2.2 = b2.2.2) (hbtgt : b1.2.2 = true → b1.2.1 = b2.2.1) :
    (if l1 = [] then none
     else if a1.2.2 then some a1.2.1 else if b1.2.2 then some b1.2.1 else none) =
    (if l2 = [] then none
     else if a2.2.2 then some a2.2.1 else if b2.2.2 then some b2.2.1 else none) := by
  by_cases hn : l1 = []
  · rw [if_pos hn, if_pos (hnil.mp hn)]
  · rw [if_neg hn, if_neg (fun h => hn (hnil.mpr h))]
    by_cases hf1 : a1.2.2 = true
    · have ha2 : a2.2.2 = true := by rw [← haflag]; exact hf1
      rw [if_pos hf1, if_pos ha2]
      exact congrArg some (hatgt hf1)
    · have ha2 : ¬(a2.2.2 = true) := by rw [← haflag]; exact hf1
      rw [if_neg hf1, if_neg ha2]
      by_cases hf2 : b1.2.2 = true
      · have hb2 : b2.2.2 = true := by rw [← hbflag]; exact hf2
        rw [if_pos hf2, if_pos hb2]
        exact congrArg some (hbtgt hf2)
      · have hb2 : ¬(b2.2.2 = true) := by rw [← hbflag]; exact hf2
        rw [if_neg hf2, if_neg hb2]

/-- Claim C8 (counterexample): the schedulers are NOT deterministic functions
of the call SET when two pending calls are equidistant: at floor 5 with calls
`{3, 7}` (both at distance 2), the map iteration order `[3, 7]` yields 3 while
`[7, 3]` yields 7, in both implementations — the first-encountered tie wins,
and Go randomises map iteration order. -/
theorem c8_counterexample :
    List.Perm ([3, 7] : List Int) [7, 3] ∧
      Mono.selectNextTarget 5 Direction.None [3, 7] = some 3 ∧
      Mono.selectNextTarget 5 Direction.None [7, 3] = some 7 ∧
      Logic.selectNextTarget 5 Direction.None [3, 7] = some 3 ∧
      Logic.selectNextTarget 5 Direction.None [7, 3] = some 7 :=
  ⟨List.Perm.swap 7 3 [], by decide, by decide, by decide, by decide⟩

/-- Claim C8 (amended): both schedulers ARE deterministic functions of
`(floor, direction, call set)` provided no two distinct pending calls are
equidistant from the current floor: any two iteration orders of the same call
set then produce the same target (Phase 1 distances are injective, so only the
Phase 2 tie-break is order-sensitive). -/
theorem c8_amended (floor : Int) (dir : Direction) (l1 l2 : List Int)
    (hmem : ∀ f : Int, f ∈ l1 ↔ f ∈ l2)
    (hnotie : ∀ a b : Int, a ∈ l1 → b ∈ l1 →
      (a - floor).natAbs = (b - floor).natAbs → a = b) :
    Mono.selectNextTarget floor dir l1 = Mono.selectNextTarget floor dir l2 ∧
      Logic.selectNextTarget floor dir l1 = Logic.selectNextTarget floor dir l2 := by
  have hnil : (l1 = []) ↔ (l2 = []) := by
    constructor
    · intro h
      subst h
      rw [List.eq_nil_iff_forall_not_mem]
      exact fun a ha => (List.not_mem_nil a) ((hmem a).mpr ha)
    · intro h
      subst h
      rw [List.eq_nil_iff_forall_not_mem]
      exact fun a ha => (List.not_mem_nil a) ((hmem a).mp ha)
  have habs : ∀ a b : Int, a ∈ l1 → b ∈ l1 → (fun _ : Int => true) a = true →
      (fun _ : Int => true) b = true →
      ((a - floor).natAbs : Int) = ((b - floor).natAbs : Int) → a = b := by
    intro a b ha hb _ _ h
    exact hnotie a b ha hb (by exact_mod_cast h)
  have h2 := scanMin_det (fun _ => true) (fun f => ((f - floor).natAbs : Int)) l1 l2 hmem habs
  cases dir with
  | Up =>
      have h1 := scanMin_det (fun f => decide (f > floor)) (fun f => f - floor) l1 l2 hmem
        (by intro a b ha hb hpa hpb h
            have h2 : a - floor = b - floor := h
            omega)
      have h1n := scanMin_det (fun f => decide (f ≥ floor)) (fun f => f - floor) l1 l2 hmem
        (by intro a b ha hb hpa hpb h
            have h2 : a - floor = b - floor := h
            omega)
      exact ⟨select_chain_det l1 l2 _ _ _ _ hnil h1.1 h1.2 h2.1 h2.2,
        select_chain_det l1 l2 _ _ _ _ hnil h1n.1 h1n.2 h2.1 h2.2⟩
  | Down =>
      have h1 := scanMin_det (fun f => decide (f < floor)) (fun f => floor - f) l1 l2 hmem
        (by intro a b ha hb hpa hpb h
            have h2 : floor - a = floor - b := h
            omega)
      have h1n := scanMin_det (fun f => decide (f ≤ floor)) (fun f => floor - f) l1 l2 hmem
        (by intro a b ha hb hpa hpb h
            have h2 : floor - a = floor - b := h
            omega)
      exact ⟨select_chain_det l1 l2 _ _ _ _ hnil h1.1 h1.2 h2.1 h2.2,
        select_chain_det l1 l2 _ _ _ _ hnil h1n.1 h1n.2 h2.1 h2.2⟩
  | None =>
      exact ⟨select_chain_det l1 l2 (maxInt64, -1, false) (maxInt64, -1, false) _ _ hnil rfl
          (fun _ => rfl) h2.1 h2.2,
        select_chain_det l1 l2 (maxInt64, -1, false) (maxInt64, -1, false) _ _ hnil rfl
          (fun _ => rfl) h2.1 h2.2⟩

/-- Witness for `c8_amended`: floor 5, call set `{3, 8}` (distances 2 and 3 —
no tie) under the two iteration orders. -/
theorem c8_amended_witness :
    Mono.selectNextTarget 5 Direction.None [3, 8]
        = Mono.selectNextTarget 5 Direction.None [8, 3] ∧
      Logic.selectNextTarget 5 Direction.None [3, 8]
        = Logic.selectNextTarget 5 Direction.None [8, 3] :=
  c8_amended 5 Direction.None [3, 8] [8, 3]
    (by intro f; simp [or_comm])
    (by
      intro a b ha hb h
      rcases (by simpa using ha : a = 3 ∨ a = 8) with rfl | rfl <;>
        rcases (by simpa using hb : b = 3 ∨ b = 8) with rfl | rfl <;>
        first
          | rfl
          | (exfalso; revert h; decide))

example : c3t1.travelTimer = some 1500 ∧ c3t1.direction = Direction.Up := by decide

example : c3t2.floor = 2 ∧ c3t2.travelTimer = some 1500 ∧ c3t2.isMoving = true := by decide

example : Split.activeDoorState c6w = DoorState.Open ∧ c6w.openWaitTime = 3000 := by decide

/-! ### Travel-duration lemmas (claim C3) -/

@[simp] theorem mono_publishEvent_travelTimer (ev : Event) (s : Mono.ElevState) :
    (Mono.publishEvent ev s).travelTimer = s.travelTimer := rfl

@[simp] theorem mono_setFloor_travelTimer (f : Int) (s : Mono.ElevState) :
    (Mono.setFloor f s).travelTimer = s.travelTimer := by
  unfold Mono.setFloor Mono.publishEvent
  split_ifs <;> rfl

@[simp] theorem mono_setDirection_travelTimer (d : Direction) (s : Mono.ElevState) :
    (Mono.setDirection d s).travelTimer = s.travelTimer := by
  unfold Mono.setDirection Mono.publishEvent
  split_ifs <;> rfl

@[simp] theorem mono_setDoor_travelTimer (side : Nat) (st : DoorState) (s : Mono.ElevState) :
    (Mono.setDoor side st s).travelTimer = s.travelTimer := by
  unfold Mono.setDoor Mono.publishEvent
  split_ifs <;> rfl

@[simp] theorem mono_setFloor_floor (f : Int) (s : Mono.ElevState) :
    (Mono.setFloor f s).floor = f := by
  unfold Mono.setFloor Mono.publishEvent
  split_ifs with h
  · exact h
  · rfl

theorem mono_handleArrival_travelTimer (f : Int) (s : Mono.ElevState) :
    (Mono.handleArrival f s).travelTimer = s.travelTimer := by
  simp only [Mono.handleArrival]
  split_ifs <;> simp

theorem mono_handleMove_travelTimer (order : List Int) (s : Mono.ElevState) :
    (Mono.handleMove order s).1.travelTimer = s.travelTimer := by
  unfold Mono.handleMove
  dsimp only
  repeat' split
  all_goals simp [mono_handleArrival_travelTimer]

/-- The continuation case of `handleMove`: when the hop continues, the next
duration is `getNextMoveDuration` at the moved floor — the edge duration for a
one-floor hop, the cruise duration otherwise. -/
theorem mono_handleMove_cont (order : List Int) (s : Mono.ElevState)
    (h : (Mono.handleMove order s).2.1 = true) :
    ∃ t, Mono.selectNextTarget (Mono.movedFloor s) s.direction order = some t ∧
      (Mono.handleMove order s).2.2 =
        (if (t - Mono.movedFloor s).natAbs = 1 then s.config.travelTimeEdge
         else s.config.travelTime) := by
  unfold Mono.handleMove at h ⊢
  unfold Mono.movedFloor
  cases hdir : s.direction <;>
    dsimp only at h ⊢ <;>
    simp only [mono_setFloor_floor, mono_setFloor_direction, mono_setFloor_callFloors,
      hdir] at h ⊢
  case Up =>
    by_cases hmem : s.floor + 1 ∈ s.callFloors
    · rw [if_pos hmem] at h
      simp at h
    · rw [if_neg hmem] at h ⊢
      obtain ⟨m, hsel⟩ : ∃ m, Mono.selectNextTarget (s.floor + 1) Direction.Up order = m := ⟨_, rfl⟩
      rw [hsel] at h ⊢
      cases m with
      | none => simp at h
      | some t =>
          dsimp only at h ⊢
          split_ifs at h ⊢ with hkeep
          all_goals
            first
              | (refine ⟨t, rfl, ?_⟩
                 dsimp only
                 unfold Mono.getNextMoveDuration
                 simp only [mono_setFloor_floor, mono_setFloor_direction, mono_setFloor_config,
                   hdir]
                 simp
                 done)
              | (simp at h
                 done)
              | (simp_all
                 done)
  case Down =>
    by_cases hmem : s.floor - 1 ∈ s.callFloors
    · rw [if_pos hmem] at h
      simp at h
    · rw [if_neg hmem] at h ⊢
      obtain ⟨m, hsel⟩ : ∃ m, Mono.selectNextTarget (s.floor - 1) Direction.Down order = m := ⟨_, rfl⟩
      rw [hsel] at h ⊢
      cases m with
      | none => simp at h
      | some t =>
          dsimp only at h ⊢
          split_ifs at h ⊢ with hkeep
          all_goals
            first
              | (refine ⟨t, rfl, ?_⟩
                 dsimp only
                 unfold Mono.getNextMoveDuration
                 simp only [mono_setFloor_floor, mono_setFloor_direction, mono_setFloor_config,
                   hdir]
                 simp
                 done)
              | (simp at h
                 done)
              | (simp_all
                 done)
  case None =>
    by_cases hmem : s.floor ∈ s.callFloors
    · rw [if_pos hmem] at h
      simp at h
    · rw [if_neg hmem] at h ⊢
      obtain ⟨m, hsel⟩ : ∃ m, Mono.selectNextTarget s.floor Direction.None order = m := ⟨_, rfl⟩
      rw [hsel] at h ⊢
      cases m with
      | none => simp at h
      | some t =>
          dsimp only at h ⊢
          split_ifs at h ⊢ with hkeep
          all_goals
            first
              | (refine ⟨t, rfl, ?_⟩
                 dsimp only
                 unfold Mono.getNextMoveDuration
                 simp only [mono_setFloor_floor, mono_setFloor_direction, mono_setFloor_config,
                   hdir]
                 simp
                 done)
              | (simp at h
                 done)
              | (simp_all
                 done)

/-- Claim C3 (counterexample): the split engine never uses `travelTimeEdge`:
starting from rest (`direction = None`, reachable state `c3s1`), its `step`
arms the travel timer with the cruise duration `travelTime = 1000`, not
`travelTimeEdge = 1500` as the claim requires. -/
theorem c3_counterexample :
    Split.Reach cfgA c3s1 ∧ c3s1.direction = Direction.None ∧ c3s1.isMoving = false ∧
      (Split.step [2] c3s1).isMoving = true ∧
      (Split.step [2] c3s1).travelTimer = some cfgA.travelTime ∧
      cfgA.travelTime ≠ cfgA.travelTimeEdge :=
  ⟨sreach_c3s1, by decide, by decide, by decide, by decide, by decide⟩

/-- When a tick starts motion, the armed duration is `getNextMoveDuration` at
the scheduler's chosen target. -/
theorem mono_step_start (order : List Int) (s : Mono.ElevState)
    (h1 : s.isMoving = false) (h2 : (Mono.step order s).isMoving = true) :
    ∃ t, Mono.selectNextTarget s.floor s.direction order = some t ∧
      (Mono.step order s).travelTimer = some (Mono.getNextMoveDuration s t) := by
  unfold Mono.step at h2 ⊢
  by_cases hA : s.mode ≠ OperationMode.Auto
  · rw [if_pos hA] at h2
    rw [h1] at h2
    cases h2
  · rw [if_neg hA] at h2 ⊢
    by_cases hB : s.isMoving = true
    · rw [h1] at hB
      cases hB
    · rw [if_neg hB] at h2 ⊢
      by_cases hC : ¬(s.doorFront = DoorState.Close ∧ s.doorRear = DoorState.Close)
      · rw [if_pos hC] at h2
        rw [h1] at h2
        cases h2
      · rw [if_neg hC] at h2 ⊢
        obtain ⟨m, hsel⟩ : ∃ m, Mono.selectNextTarget s.floor s.direction order = m := ⟨_, rfl⟩
        rw [hsel] at h2 ⊢
        cases m with
        | none =>
            by_cases hD : s.direction ≠ Direction.None
            · rw [if_pos hD] at h2
              exact absurd h2 (by simp [h1])
            · rw [if_neg hD] at h2
              exact absurd h2 (by simp [h1])
        | some t =>
            dsimp only at h2 ⊢
            by_cases hgt : t > s.floor
            · rw [if_pos hgt] at h2 ⊢
              exact ⟨t, rfl, rfl⟩
            · rw [if_neg hgt] at h2 ⊢
              by_cases hlt : t < s.floor
              · rw [if_pos hlt] at h2 ⊢
                exact ⟨t, rfl, rfl⟩
              · rw [if_neg hlt] at h2
                rw [mono_handleArrival_isMoving] at h2
                rw [h1] at h2
                cases h2

/-- Claim C3 (amended): in the MONOLITH the claim holds — a tick that starts
motion from rest (`direction = None`) arms the travel timer with
`travelTimeEdge`, and a travel fire that continues motion re-arms it with
`travelTimeEdge` when the chosen target is exactly one floor from the new
floor and with `travelTime` otherwise.  The split engine always arms
`travelTime` (see the counterexample). -/
theorem c3_amended :
    (∀ (order : List Int) (s : Mono.ElevState),
      s.isMoving = false → s.direction = Direction.None →
      (Mono.step order s).isMoving = true →
      (Mono.step order s).travelTimer = some s.config.travelTimeEdge) ∧
    (∀ (order : List Int) (s : Mono.ElevState) (d : Int),
      (Mono.fireTravel order s).travelTimer = some d →
      ∃ t, Mono.selectNextTarget (Mono.movedFloor s) s.direction order = some t ∧
        d = (if (t - Mono.movedFloor s).natAbs = 1 then s.config.travelTimeEdge
             else s.config.travelTime)) := by
  constructor
  · intro order s h1 hdir h2
    obtain ⟨t, hsel, htimer⟩ := mono_step_start order s h1 h2
    rw [htimer]
    unfold Mono.getNextMoveDuration
    rw [if_pos (Or.inl hdir)]
  · intro order s d h
    unfold Mono.fireTravel at h
    dsimp only at h
    by_cases hcont : (Mono.handleMove order { s with travelTimer := none }).2.1 = true
    · rw [if_pos hcont] at h
      obtain ⟨t, hsel, hdur⟩ := mono_handleMove_cont order { s with travelTimer := none } hcont
      refine ⟨t, hsel, ?_⟩
      have hd : d = (Mono.handleMove order { s with travelTimer := none }).2.2 := by
        have h2 := h
        simp only [Option.some.injEq] at h2
        exact h2.symm
      rw [hd, hdur]
      rfl
    · rw [if_neg hcont] at h
      have hnone : (Mono.handleMove order { s with travelTimer := none }).1.travelTimer
          = none := mono_handleMove_travelTimer order { s with travelTimer := none }
      rw [show ({ (Mono.handleMove order { s with travelTimer := none }).1 with
            isMoving := false } : Mono.ElevState).travelTimer
          = (Mono.handleMove order { s with travelTimer := none }).1.travelTimer from rfl,
        hnone] at h
      cases h

/-- Witness for `c3_amended`: the from-rest tick on `c3t0` arms the edge
duration, and the continuing travel fire on `c3t1` (target one floor away)
re-arms the edge duration. -/
theorem c3_amended_witness :
    (Mono.step [3] c3t0).travelTimer = some c3t0.config.travelTimeEdge ∧
      (∃ t, Mono.selectNextTarget (Mono.movedFloor c3t1) c3t1.direction [3] = some t ∧
        (1500 : Int) = (if (t - Mono.movedFloor c3t1).natAbs = 1 then c3t1.config.travelTimeEdge
                        else c3t1.config.travelTime)) :=
  ⟨c3_amended.1 [3] c3t0 (by decide) (by decide) (by decide),
   c3_amended.2 [3] c3t1 1500 (by decide)⟩

/-- Claim C5 (counterexample): neither `New` validates the initial floor: with
`initialFloor = 20` outside `[1, 10]`, both constructors succeed and the
engine starts at the out-of-range floor 20 instead of returning an error. -/
theorem c5_counterexample :
    cfgBad.initialFloor > cfgBad.maxFloor ∧
      (Mono.New cfgBad).toOption.map Mono.ElevState.floor = some 20 ∧
      (Split.New cfgBad).toOption.map Split.SplitState.floor = some 20 :=
  ⟨by decide, by decide, by decide⟩

/-- Claim C5 (amended): construction returns an error iff
`minFloor > maxFloor`; `initialFloor` is NOT validated.  When
`minFloor ≤ maxFloor`, construction succeeds with `floor = initialFloor`
(whatever it is), `direction = None`, both doors `Close`, mode `Auto` and no
calls — in both engines. -/
theorem c5_amended (cfg : Config) :
    (cfg.minFloor > cfg.maxFloor →
      (Mono.New cfg).toOption = none ∧ (Split.New cfg).toOption = none) ∧
    (¬cfg.minFloor > cfg.maxFloor →
      (Mono.New cfg).toOption.map Mono.ElevState.floor = some cfg.initialFloor ∧
      (Mono.New cfg).toOption.map Mono.ElevState.direction = some Direction.None ∧
      (Mono.New cfg).toOption.map Mono.ElevState.doorFront = some DoorState.Close ∧
      (Mono.New cfg).toOption.map Mono.ElevState.doorRear = some DoorState.Close ∧
      (Mono.New cfg).toOption.map Mono.ElevState.mode = some OperationMode.Auto ∧
      (Mono.New cfg).toOption.map Mono.ElevState.callFloors = some ∅ ∧
      (Split.New cfg).toOption.map Split.SplitState.floor = some cfg.initialFloor ∧
      (Split.New cfg).toOption.map Split.SplitState.direction = some Direction.None ∧
      (Split.New cfg).toOption.map Split.SplitState.doorFront = some DoorState.Close ∧
      (Split.New cfg).toOption.map Split.SplitState.doorRear = some DoorState.Close ∧
      (Split.New cfg).toOption.map Split.SplitState.mode = some OperationMode.Auto ∧
      (Split.New cfg).toOption.map Split.SplitState.calls = some ∅) := by
  constructor
  · intro h
    constructor
    · unfold Mono.New
      rw [if_pos h]
      rfl
    · unfold Split.New
      dsimp only
      rw [if_pos h]
      rfl
  · intro h
    refine ⟨?_, ?_, ?_, ?_, ?_, ?_, ?_, ?_, ?_, ?_, ?_, ?_⟩ <;>
      first
        | (unfold Mono.New
           rw [if_neg h]
           rfl)
        | (unfold Split.New
           dsimp only
           rw [if_neg h]
           rfl)

/-- Witness for `c5_amended`: rejection of `minFloor = 5 > 2 = maxFloor`, and
a successful construction under `cfgA`. -/
theorem c5_amended_witness :
    ((Mono.New cfgBad2).toOption = none ∧ (Split.New cfgBad2).toOption = none) ∧
      (Mono.New cfgA).toOption.map Mono.ElevState.floor = some 1 ∧
      (Mono.New cfgA).toOption.map Mono.ElevState.callFloors = some ∅ ∧
      (Split.New cfgA).toOption.map Split.SplitState.floor = some 1 :=
  ⟨(c5_amended cfgBad2).1 (by decide),
   ((c5_amended cfgA).2 (by decide)).1,
   ((c5_amended cfgA).2 (by decide)).2.2.2.2.2.1,
   ((c5_amended cfgA).2 (by decide)).2.2.2.2.2.2.1⟩

/-- One overloaded door-timer fire in state `Open` on the monolith: the door
stays `Open`, no event is emitted, and the timer is re-armed — with
`doorReopenTime` when the open button is held (the button check precedes the
overload check), with `openWaitTime` otherwise. -/
theorem mono_overload_step (s : Mono.ElevState)
    (hact : Mono.activeDoorState s = DoorState.Open)
    (hmw : s.config.maxWeight > 0) (hov : s.weight > s.config.maxWeight) :
    Mono.handleDoorTimeout s =
      { s with doorTimer := some (if s.isOpenButtonPressed then s.config.doorReopenTime
                                  else s.openWaitTime) } := by
  unfold Mono.handleDoorTimeout
  rw [hact]
  dsimp only
  by_cases hb : s.isOpenButtonPressed = true
  · rw [if_pos hb, if_pos hb]
  · rw [if_neg hb, if_neg hb, if_pos ⟨hmw, hov⟩]

/-- One overloaded door-timer fire in state `Open` on the split engine: the
overload check comes first, so the timer is always re-armed with
`openWaitTime`. -/
theorem split_overload_step (s : Split.SplitState)
    (hact : Split.activeDoorState s = DoorState.Open)
    (hmw : s.config.maxWeight > 0) (hov : s.weight > s.config.maxWeight) :
    Split.handleDoorTimeout s = { s with doorTimer := some s.openWaitTime } := by
  unfold Split.handleDoorTimeout
  rw [hact]
  dsimp only
  rw [if_pos ⟨hmw, hov⟩]

/-- Claim C6 (counterexample): the re-arm duration clause of the claim fails
on the monolith when the OPEN button is held: in the reachable state `c6s6`
(front door `Open`, button held, 1500 kg > 1000 kg, `openWaitTime = 3000`),
the door-timer fire re-arms the timer with `doorReopenTime = 5000`, not with
`openWaitTime` as the claim states (the door still stays `Open` and no
`Closing` event occurs). -/
theorem c6_counterexample :
    Mono.Reach cfgA c6s6 ∧ Mono.activeDoorState c6s6 = DoorState.Open ∧
      c6s6.config.maxWeight = 1000 ∧ c6s6.weight = 1500 ∧
      c6s6.openWaitTime = 3000 ∧
      (Mono.fireDoor c6s6).doorTimer = some 5000 ∧
      (Mono.fireDoor c6s6).doorTimer ≠ some c6s6.openWaitTime :=
  ⟨reach_c6s6, by decide, by decide, by decide, by decide, by decide, by decide⟩

/-- Claim C6 (amended): whenever the door timer fires with the active door
`Open`, `maxWeight > 0` and `weight > maxWeight`, the Open→Closing transition
is refused: for any number of consecutive fires the doors and the whole state
(including the event log — so no `Closing` event) stay unchanged except for
the re-armed timer.  The split engine re-arms with `openWaitTime` as claimed;
the monolith checks the held OPEN button first and in that case re-arms with
`doorReopenTime` instead. -/
theorem c6_amended :
    (∀ (s : Mono.ElevState) (n : Nat), Mono.activeDoorState s = DoorState.Open →
      s.config.maxWeight > 0 → s.weight > s.config.maxWeight →
      Mono.handleDoorTimeout^[n + 1] s =
        { s with doorTimer := some (if s.isOpenButtonPressed then s.config.doorReopenTime
                                    else s.openWaitTime) }) ∧
    (∀ (s : Split.SplitState) (n : Nat), Split.activeDoorState s = DoorState.Open →
      s.config.maxWeight > 0 → s.weight > s.config.maxWeight →
      Split.handleDoorTimeout^[n + 1] s = { s with doorTimer := some s.openWaitTime }) := by
  constructor
  · intro s n hact hmw hov
    induction n with
    | zero =>
        rw [Function.iterate_one]
        exact mono_overload_step s hact hmw hov
    | succ k ih =>
        rw [Function.iterate_succ_apply', ih]
        exact mono_overload_step
          { s with doorTimer := some (if s.isOpenButtonPressed then s.config.doorReopenTime
                                      else s.openWaitTime) } hact hmw hov
  · intro s n hact hmw hov
    induction n with
    | zero =>
        rw [Function.iterate_one]
        exact split_overload_step s hact hmw hov
    | succ k ih =>
        rw [Function.iterate_succ_apply', ih]
        exact split_overload_step { s with doorTimer := some s.openWaitTime } hact hmw hov

/-- Witness for `c6_amended` at the concrete states `c6s6` (monolith, button
held) and `c6w` (split engine). -/
theorem c6_amended_witness :
    Mono.handleDoorTimeout^[1] c6s6 =
      { c6s6 with doorTimer := some (if c6s6.isOpenButtonPressed then
          c6s6.config.doorReopenTime else c6s6.openWaitTime) } ∧
      Split.handleDoorTimeout^[1] c6w = { c6w with doorTimer := some c6w.openWaitTime } :=
  ⟨c6_amended.1 c6s6 0 (by decide) (by decide) (by decide),
   c6_amended.2 c6w 0 (by decide) (by decide) (by decide)⟩
